import Mathlib

/-!
# Digital rain engine (struct Rain of src/apps/matrix.cpp)

A shallow embedding of the Rain engine: the palette snapshot taken by the
constructor and restored by the destructor, and the per-frame update rule
Rain::paint with its helpers highlight, fade, is_drop, get_random_character,
should_roll_drop, should_fade and should_add_drop.

The terminal surface is the curses library, which is not part of the program.
Its primitives are modelled at the boundary the specification gives them
(section 6): a surface is a grid of cells, each holding a glyph and an
attribute identifier (color pair number), together with a palette of color
indices and color pairs.  Every access to a cell is appended to a trace, so
that statements about which cells are read or written can be made.

The uniform generator is a stream of rational draws; the number of draws
consumed so far is part of the mutable state.
-/

namespace Matrix

/-! ## Host surface -/

/-- Modelled from the spec: a cell value of the host surface (the curses chtype), a glyph
together with an attribute identifier.  The C expression ch | COLOR_PAIR(p) builds the
cell value with glyph ch and attribute identifier p. -/
structure chtype where
  glyph : Int
  pair : Nat
deriving DecidableEq, Repr

/-- Modelled from the spec: PAIR_NUMBER, the attribute identifier carried by a cell value. -/
def PAIR_NUMBER (cell : chtype) : Nat := cell.pair

/-- One access to a cell of the surface: mvwinch reads, mvwaddch writes glyph and
attribute, mvwchgat overwrites the attribute only. -/
inductive Touch where
  | read (row col : Nat)
  | write (row col : Nat)
  | recolor (row col : Nat)
deriving DecidableEq, Repr

/-- The row a cell access refers to. -/
def Touch.row : Touch → Nat
  | .read r _ => r
  | .write r _ => r
  | .recolor r _ => r

/-- The column a cell access refers to. -/
def Touch.col : Touch → Nat
  | .read _ c => c
  | .write _ c => c
  | .recolor _ c => c

/-- Modelled from the spec: the surface, its current dimensions and the cell rendered at
each position.  The map is total; the dimensions bound the loops of paint. -/
structure WINDOW where
  rows : Nat
  cols : Nat
  cell : Nat → Nat → chtype

/-- A color index definition (red, green, blue) as color_content reports it. -/
abbrev RGB := Int × Int × Int

/-- A color pair definition (foreground, background) as pair_content reports it. -/
abbrev FgBg := Int × Int

/-- Modelled from the spec: the global palette of the host, the definition of every color
index and of every color pair. -/
structure Palette where
  color : Nat → RGB
  pair : Nat → FgBg

/-- The exception thrown by std::vector::at. -/
inductive Exn where
  | out_of_range
deriving DecidableEq, Repr

/-- Everything the engine mutates: the palette, the window, the number of draws taken
from the generator, and the trace of cell accesses. -/
structure World where
  palette : Palette
  window : WINDOW
  drawn : Nat
  trace : List Touch

/-- Modelled from the spec: getmaxyx, the current dimensions (rows, cols). -/
def getmaxyx (s : World) : Nat × Nat := (s.window.rows, s.window.cols)

/-- Modelled from the spec: mvwinch, read the cell value rendered at (row, col). -/
def mvwinch (row col : Nat) (s : World) : chtype × World :=
  (s.window.cell row col, { s with trace := s.trace ++ [Touch.read row col] })

/-- Modelled from the spec: mvwaddch, write a glyph plus attribute identifier at
(row, col). -/
def mvwaddch (row col : Nat) (ch : chtype) (s : World) : World :=
  { s with
    window := { s.window with
      cell := fun r c => if r = row ∧ c = col then ch else s.window.cell r c }
    trace := s.trace ++ [Touch.write row col] }

/-- The attribute constant A_NORMAL (no attribute besides the color pair). -/
def A_NORMAL : Nat := 0

/-- Modelled from the spec: mvwchgat, overwrite only the attribute identifier of the n cells
starting at (row, col), preserving the glyph.  The model of a cell has no attribute
besides the color pair, so the attr argument has no further effect. -/
def mvwchgat (row col n : Nat) (_attr : Nat) (color_pair : Nat) (s : World) : World :=
  { s with
    window := { s.window with
      cell := fun r c =>
        if r = row ∧ col ≤ c ∧ c < col + n then
          { glyph := (s.window.cell r c).glyph, pair := color_pair }
        else s.window.cell r c }
    trace := s.trace ++ [Touch.recolor row col] }

/-- Modelled from the spec: wbkgd, set the default fill attribute of the surface; every cell
takes the given attribute identifier and keeps its glyph. -/
def wbkgd (color_pair : Nat) (s : World) : World :=
  { s with
    window := { s.window with
      cell := fun r c => { glyph := (s.window.cell r c).glyph, pair := color_pair } } }

/-- Modelled from the spec: color_content, query the definition of a color index. -/
def color_content (color_index : Nat) (s : World) : RGB := s.palette.color color_index

/-- Modelled from the spec: pair_content, query the definition of a color pair. -/
def pair_content (color_pair : Nat) (s : World) : FgBg := s.palette.pair color_pair

/-- Modelled from the spec: init_color, define a color index. -/
def init_color (color_index : Nat) (r g b : Int) (s : World) : World :=
  { s with
    palette := { s.palette with
      color := fun i => if i = color_index then (r, g, b) else s.palette.color i } }

/-- Modelled from the spec: init_pair, define a color pair. -/
def init_pair (color_pair : Nat) (fg bg : Int) (s : World) : World :=
  { s with
    palette := { s.palette with
      pair := fun i => if i = color_pair then (fg, bg) else s.palette.pair i } }

/-! ## struct Rain -/

/-- The constant member m_begin_gradient_color_pair. -/
def m_begin_gradient_color_pair : Nat := 1

/-- The constant member m_gradient_steps. -/
def m_gradient_steps : Nat := 20

/-- The constant member m_highlight_color_pair. -/
def m_highlight_color_pair : Nat := m_begin_gradient_color_pair + m_gradient_steps

/-- The insert of std::map: the entry is placed in key order, and an existing key keeps
its value. -/
def map_insert {V : Type} (k : Nat) (v : V) : List (Nat × V) → List (Nat × V)
  | [] => [(k, v)]
  | (k0, v0) :: rest =>
    if k < k0 then (k, v) :: (k0, v0) :: rest
    else if k = k0 then (k0, v0) :: rest
    else (k0, v0) :: map_insert k v rest

/-- The members of struct Rain that do not change after construction.  The generator
m_generator with its distribution is the stream of draws m_generator; the window is part
of the world. -/
structure Rain where
  m_density : ℚ
  m_roll_rate : ℚ
  m_fade_rate : ℚ
  m_generator : Nat → ℚ
  m_character_set : List Int
  m_original_color_indices : List (Nat × RGB)
  m_original_color_pairs : List (Nat × FgBg)

/-- The snapshot loop of the constructor, iterations i, i + 1, ... (n of them).  The loop
only reads the palette; the identifiers 1 to 21 fit the short they are kept in. -/
def save_loop (s : World) :
    Nat → Nat → List (Nat × RGB) × List (Nat × FgBg) → List (Nat × RGB) × List (Nat × FgBg)
  | 0, _, saved => saved
  | n + 1, i, saved =>
    let color_index := i
    let rgb := color_content color_index s
    let color_pair := i
    let fgbg := pair_content color_pair s
    save_loop s n (i + 1) (map_insert color_index rgb saved.1, map_insert color_pair fgbg saved.2)

/-- The gradient loop of the constructor, iterations i, i + 1, ... (n of them). -/
def gradient_loop (color_index_black : Nat) : Nat → Nat → World → World
  | 0, _, s => s
  | n + 1, i, s =>
    let MAX_SATURATION : Nat := 1000
    let color_index := m_begin_gradient_color_pair + i
    let r : Int := 0
    let g : Int := ((i * (MAX_SATURATION / m_gradient_steps) : Nat) : Int)
    let b : Int := 0
    let s1 := init_color color_index r g b s
    let color_pair := m_begin_gradient_color_pair + i
    let fg : Int := (color_index : Int)
    let bg : Int := (color_index_black : Int)
    let s2 := init_pair color_pair fg bg s1
    gradient_loop color_index_black n (i + 1) s2

/-- The constructor Rain::Rain. -/
def Rain.ctor (density roll_rate fade_rate : ℚ) (generator : Nat → ℚ)
    (character_set : List Int) (s : World) : Rain × World :=
  let saved := save_loop s (m_highlight_color_pair + 1 - m_begin_gradient_color_pair)
    m_begin_gradient_color_pair ([], [])
  let color_index_black := m_begin_gradient_color_pair
  let color_index_white := m_highlight_color_pair
  let s1 := init_color color_index_black 0 0 0 s
  let s2 := init_color color_index_white 700 700 700 s1
  let s3 := gradient_loop color_index_black m_gradient_steps 0 s2
  let fg : Int := (color_index_black : Int)
  let bg : Int := (color_index_white : Int)
  let s4 := init_pair m_highlight_color_pair fg bg s3
  let invisible_gradient_color_pair := m_begin_gradient_color_pair
  let s5 := wbkgd invisible_gradient_color_pair s4
  ({ m_density := density
     m_roll_rate := roll_rate
     m_fade_rate := fade_rate
     m_generator := generator
     m_character_set := character_set
     m_original_color_indices := saved.1
     m_original_color_pairs := saved.2 }, s5)

/-- The first loop of the destructor: redefine every saved color index. -/
def restore_colors : List (Nat × RGB) → World → World
  | [], s => s
  | (color_index, (r, g, b)) :: rest, s => restore_colors rest (init_color color_index r g b s)

/-- The second loop of the destructor: redefine every saved color pair. -/
def restore_pairs : List (Nat × FgBg) → World → World
  | [], s => s
  | (color_pair, (fg, bg)) :: rest, s => restore_pairs rest (init_pair color_pair fg bg s)

/-- The destructor of Rain. -/
def Rain.dtor (rain : Rain) (s : World) : World :=
  restore_pairs rain.m_original_color_pairs (restore_colors rain.m_original_color_indices s)

/-- One call m_distribution(m_generator): the next draw of the stream. -/
def m_distribution (rain : Rain) (s : World) : ℚ × World :=
  (rain.m_generator s.drawn, { s with drawn := s.drawn + 1 })

/-- The method Rain::should_roll_drop. -/
def should_roll_drop (rain : Rain) (s : World) : Bool × World :=
  let (u, s1) := m_distribution rain s
  (decide (u < rain.m_roll_rate), s1)

/-- The method Rain::should_fade. -/
def should_fade (rain : Rain) (s : World) : Bool × World :=
  let (u, s1) := m_distribution rain s
  (decide (u < rain.m_fade_rate), s1)

/-- The method Rain::should_add_drop. -/
def should_add_drop (rain : Rain) (s : World) : Bool × World :=
  let (u, s1) := m_distribution rain s
  (decide (u < rain.m_density), s1)

/-- The method Rain::get_random_character: the index is the product of the draw and the
size of the character set converted to size_t (the integer part, draws being
non-negative); at() throws when the index is not below the size. -/
def get_random_character (rain : Rain) (s : World) : Except Exn (Int × World) :=
  let (u, s1) := m_distribution rain s
  let random_index : Nat := Nat.floor (u * (rain.m_character_set.length : ℚ))
  match rain.m_character_set[random_index]? with
  | some ch => Except.ok (ch, s1)
  | none => Except.error Exn.out_of_range

/-- The method Rain::highlight. -/
def highlight (rain : Rain) (row col : Nat) (s : World) : Except Exn World :=
  match get_random_character rain s with
  | Except.ok (ch, s1) =>
    Except.ok (mvwaddch row col { glyph := ch, pair := m_highlight_color_pair } s1)
  | Except.error e => Except.error e

/-- The method Rain::fade.  The attribute identifiers of the host fit the short the
method keeps them in, so the conversions to short leave them as they are. -/
def fade (row col : Nat) (s : World) : World :=
  let (cell, s1) := mvwinch row col s
  let color_pair := PAIR_NUMBER cell
  let faded_color_pair :=
    if color_pair > m_begin_gradient_color_pair then color_pair - 1
    else m_begin_gradient_color_pair
  mvwchgat row col 1 A_NORMAL faded_color_pair s1

/-- The method Rain::is_drop. -/
def is_drop (row col : Nat) (s : World) : Bool × World :=
  let (cell, s1) := mvwinch row col s
  (decide (m_highlight_color_pair = PAIR_NUMBER cell), s1)

/-- The body of the inner loop of Rain::paint: the visit of the cell (row, col). -/
def paint_cell (rain : Rain) (rows row col : Nat) (s : World) : Except Exn World :=
  let (drop, s1) := is_drop row col s
  if drop then
    let (roll, s2) := should_roll_drop rain s1
    if roll then
      let s3 := fade row col s2
      if row + 1 < rows then highlight rain (row + 1) col s3
      else Except.ok s3
    else Except.ok s2
  else
    let (fading, s2) := should_fade rain s1
    if fading then Except.ok (fade row col s2)
    else Except.ok s2

/-- The inner loop of Rain::paint: n iterations, starting at the given row. -/
def paint_rows (rain : Rain) (rows col : Nat) : Nat → Nat → World → Except Exn World
  | 0, _, s => Except.ok s
  | n + 1, row, s =>
    match paint_cell rain rows row col s with
    | Except.ok s1 => paint_rows rain rows col n (row + 1) s1
    | Except.error e => Except.error e

/-- The spawn check that ends the visit of a column in Rain::paint.  The draw comes first;
row 0 is inspected only when the draw succeeded. -/
def paint_spawn (rain : Rain) (col : Nat) (s : World) : Except Exn World :=
  let (add, s1) := should_add_drop rain s
  if add then
    let (drop, s2) := is_drop 0 col s1
    if !drop then highlight rain 0 col s2
    else Except.ok s2
  else Except.ok s1

/-- The body of the outer loop of Rain::paint: all rows of the column, then the spawn
check. -/
def paint_col (rain : Rain) (rows col : Nat) (s : World) : Except Exn World :=
  match paint_rows rain rows col rows 0 s with
  | Except.ok s1 => paint_spawn rain col s1
  | Except.error e => Except.error e

/-- The outer loop of Rain::paint: n iterations, starting at the given column. -/
def paint_cols (rain : Rain) (rows : Nat) : Nat → Nat → World → Except Exn World
  | 0, _, s => Except.ok s
  | n + 1, col, s =>
    match paint_col rain rows col s with
    | Except.ok s1 => paint_cols rain rows n (col + 1) s1
    | Except.error e => Except.error e

/-- The method Rain::paint. -/
def paint (rain : Rain) (s : World) : Except Exn World :=
  let (rows, cols) := getmaxyx s
  paint_cols rain rows cols 0 s

/-- The frame loop of main: n calls of paint. -/
def paint_frames (rain : Rain) : Nat → World → Except Exn World
  | 0, s => Except.ok s
  | n + 1, s =>
    match paint rain s with
    | Except.ok s1 => paint_frames rain n s1
    | Except.error e => Except.error e

/-- The lifetime of the engine in main: construction, n frames, destruction. -/
def lifecycle (density roll_rate fade_rate : ℚ) (generator : Nat → ℚ)
    (character_set : List Int) (n : Nat) (s : World) : Except Exn World :=
  let (rain, s1) := Rain.ctor density roll_rate fade_rate generator character_set s
  match paint_frames rain n s1 with
  | Except.ok s2 => Except.ok (Rain.dtor rain s2)
  | Except.error e => Except.error e

/-! ## The gradient model of the specification -/

/-- The states the gradient model of the specification gives a cell: a trail level or the
head marker.  (Defined from the words of the specification; the program has no such
type.) -/
inductive Marker where
  | level (L : Nat)
  | HEAD
deriving DecidableEq, Repr

/-- G of the specification: the number of gradient steps minus one, the brightest trail
level. -/
def G : Nat := m_gradient_steps - 1

/-- The markers the specification encodes: the levels 0 to G and the head. -/
def Marker.valid : Marker → Prop
  | .level L => L ≤ G
  | .HEAD => True

/-- The encode of the specification: level L is the color pair
m_begin_gradient_color_pair + L, the head is m_highlight_color_pair. -/
def encode : Marker → Nat
  | .level L => m_begin_gradient_color_pair + L
  | .HEAD => m_highlight_color_pair

/-- The decode of the specification; the result none stands for UNKNOWN. -/
def decode (p : Nat) : Option Marker :=
  if p = m_highlight_color_pair then some Marker.HEAD
  else if m_begin_gradient_color_pair ≤ p ∧ p < m_highlight_color_pair then
    some (Marker.level (p - m_begin_gradient_color_pair))
  else none

/-- The UNKNOWN of the specification: what decode yields outside the reserved range. -/
def UNKNOWN : Option Marker := none

/-! ## Intermediate worlds and predicates on columns -/

/-- The world after is_drop has read the cell and one draw has been taken. -/
def checked (row col : Nat) (s : World) : World :=
  { s with trace := s.trace ++ [Touch.read row col], drawn := s.drawn + 1 }

/-- The cell (row, col) of the world s is a head. -/
def head_at (s : World) (row col : Nat) : Prop :=
  (s.window.cell row col).pair = m_highlight_color_pair

/-- Whether a cell is a head can be computed. -/
instance head_at_decidable (s : World) (row col : Nat) : Decidable (head_at s row col) := by
  unfold head_at
  infer_instance

/-- The color pair fade gives a cell that carries the color pair p. -/
def faded (p : Nat) : Nat :=
  if p > m_begin_gradient_color_pair then p - 1 else m_begin_gradient_color_pair

/-- Among the rows a, ..., rows - 1 of the column there is at most one head. -/
def heads_unique_from (a rows : Nat) (s : World) (col : Nat) : Prop :=
  ∀ j k, a ≤ j → j < rows → a ≤ k → k < rows → head_at s j col → head_at s k col → j = k

/-! ## Concrete inputs -/

/-- A palette with every color index black and every pair (7, 0). -/
def palette0 : Palette := { color := fun _ => (0, 0, 0), pair := fun _ => (7, 0) }

/-- A 2 x 2 surface holding a head, a foreign attribute, the background and a trail. -/
def window_mixed : WINDOW :=
  { rows := 2
    cols := 2
    cell := fun r c =>
      if r = 0 ∧ c = 0 then { glyph := 65, pair := 21 }
      else if r = 0 ∧ c = 1 then { glyph := 66, pair := 40 }
      else if r = 1 ∧ c = 0 then { glyph := 32, pair := 1 }
      else { glyph := 67, pair := 9 } }

/-- The world around window_mixed before any draw. -/
def world_mixed : World :=
  { palette := palette0, window := window_mixed, drawn := 0, trace := [] }

/-- An engine with all three probabilities zero and the constant draw 1/2. -/
def rain_still : Rain :=
  { m_density := 0
    m_roll_rate := 0
    m_fade_rate := 0
    m_generator := fun _ => 1 / 2
    m_character_set := [65, 66, 67]
    m_original_color_indices := []
    m_original_color_pairs := [] }

/-- A 2 x 1 surface with the background on top and a head in the last row. -/
def window_bottom_head : WINDOW :=
  { rows := 2
    cols := 1
    cell := fun r _ => if r = 1 then { glyph := 65, pair := 21 } else { glyph := 32, pair := 1 } }

/-- The world around window_bottom_head before any draw. -/
def world_bottom_head : World :=
  { palette := palette0, window := window_bottom_head, drawn := 0, trace := [] }

/-- An engine that always rolls, never fades and never spawns, with the constant draw
1/2. -/
def rain_rolling : Rain :=
  { m_density := 0
    m_roll_rate := 1
    m_fade_rate := 0
    m_generator := fun _ => 1 / 2
    m_character_set := [65, 66, 67]
    m_original_color_indices := []
    m_original_color_pairs := [] }

/-- A 1 x 1 surface at the background level. -/
def window_one : WINDOW := { rows := 1, cols := 1, cell := fun _ _ => { glyph := 32, pair := 1 } }

/-- The world around window_one before any draw. -/
def world_one : World := { palette := palette0, window := window_one, drawn := 0, trace := [] }

/-- An engine that always spawns and always rolls and never fades, with the constant draw
1/2. -/
def rain_eager : Rain :=
  { m_density := 1
    m_roll_rate := 1
    m_fade_rate := 0
    m_generator := fun _ => 1 / 2
    m_character_set := [65, 66, 67]
    m_original_color_indices := []
    m_original_color_pairs := [] }

/-- A 1 x 1 surface whose cell holds the trail level 7 (color pair 8). -/
def window_trail : WINDOW :=
  { rows := 1, cols := 1, cell := fun _ _ => { glyph := 88, pair := 8 } }

/-- The world around window_trail before any draw. -/
def world_trail : World :=
  { palette := palette0, window := window_trail, drawn := 0, trace := [] }

/-- A 2 x 1 surface with a head on top and the background below. -/
def window_top_head : WINDOW :=
  { rows := 2
    cols := 1
    cell := fun r _ => if r = 0 then { glyph := 65, pair := 21 } else { glyph := 32, pair := 1 } }

/-- The world around window_top_head before any draw. -/
def world_top_head : World :=
  { palette := palette0, window := window_top_head, drawn := 0, trace := [] }

/-- A 1 x 1 surface whose cell carries color pair 22, just above the reserved range. -/
def window_foreign : WINDOW :=
  { rows := 1, cols := 1, cell := fun _ _ => { glyph := 88, pair := 22 } }

/-- The world around window_foreign before any draw. -/
def world_foreign : World :=
  { palette := palette0, window := window_foreign, drawn := 0, trace := [] }

/-- An engine that always fades and never rolls or spawns, with the constant draw 1/2. -/
def rain_fading : Rain :=
  { m_density := 0
    m_roll_rate := 0
    m_fade_rate := 1
    m_generator := fun _ => 1 / 2
    m_character_set := [65, 66, 67]
    m_original_color_indices := []
    m_original_color_pairs := [] }

/-- A 1 x 1 surface whose cell carries color pair 40, outside the reserved range. -/
def window_far : WINDOW :=
  { rows := 1, cols := 1, cell := fun _ _ => { glyph := 88, pair := 40 } }

/-- The world around window_far before any draw. -/
def world_far : World :=
  { palette := palette0, window := window_far, drawn := 0, trace := [] }

/-- A 2 x 1 surface with a head on top and, below it, the color pair 22 above the head. -/
def window_head_over_22 : WINDOW :=
  { rows := 2
    cols := 1
    cell := fun r _ => if r = 0 then { glyph := 65, pair := 21 } else { glyph := 88, pair := 22 } }

/-- The world around window_head_over_22 before any draw. -/
def world_head_over_22 : World :=
  { palette := palette0, window := window_head_over_22, drawn := 0, trace := [] }

/-- An engine that always spawns and never rolls or fades, with the constant draw 1/2. -/
def rain_spawning : Rain :=
  { m_density := 1
    m_roll_rate := 0
    m_fade_rate := 0
    m_generator := fun _ => 1 / 2
    m_character_set := [65, 66, 67]
    m_original_color_indices := []
    m_original_color_pairs := [] }

/-- An engine with an empty character set that always spawns, with the constant draw
1/2. -/
def rain_mute : Rain :=
  { m_density := 1
    m_roll_rate := 0
    m_fade_rate := 0
    m_generator := fun _ => 1 / 2
    m_character_set := []
    m_original_color_indices := []
    m_original_color_pairs := [] }

/-- The number of heads among the rows 0, ..., rows - 1 of a column. -/
def head_count (s : World) (rows col : Nat) : Nat :=
  (List.range rows).countP (fun r => decide (head_at s r col))

/-- A 3 x 2 surface inside the reserved range: column 0 holds a head over two trail cells,
column 1 holds no head. -/
def window_reserved : WINDOW :=
  { rows := 3
    cols := 2
    cell := fun r c =>
      if c = 0 then
        (if r = 0 then { glyph := 65, pair := 21 } else { glyph := 66, pair := 7 })
      else { glyph := 67, pair := 20 } }

/-- The world around window_reserved before any draw. -/
def world_reserved : World :=
  { palette := palette0, window := window_reserved, drawn := 0, trace := [] }

/-- An engine with the rates of main (density 1/1000, roll rate 2/5, fade rate 1/5) and the
constant draw 1/4. -/
def rain_main : Rain :=
  { m_density := 1 / 1000
    m_roll_rate := 2 / 5
    m_fade_rate := 1 / 5
    m_generator := fun _ => 1 / 4
    m_character_set := [65, 66, 67]
    m_original_color_indices := []
    m_original_color_pairs := [] }

/-! ## Frames that change nothing -/

theorem paint_cell_still (rain : Rain) (rows row col : Nat) (s : World)
    (hr : rain.m_roll_rate = 0) (hf : rain.m_fade_rate = 0)
    (hu : ∀ i, 0 ≤ rain.m_generator i) :
    ∃ s1, paint_cell rain rows row col s = Except.ok s1 ∧ s1.window = s.window := by
  have h0 : ∀ i, ¬ rain.m_generator i < 0 := fun i => not_lt.mpr (hu i)
  simp only [paint_cell, is_drop, mvwinch, should_roll_drop, should_fade, m_distribution,
    hr, hf, h0, decide_False]
  split <;> simp

theorem paint_rows_still (rain : Rain) (rows col : Nat)
    (hr : rain.m_roll_rate = 0) (hf : rain.m_fade_rate = 0)
    (hu : ∀ i, 0 ≤ rain.m_generator i) (n : Nat) :
    ∀ (row : Nat) (s : World),
      ∃ s1, paint_rows rain rows col n row s = Except.ok s1 ∧ s1.window = s.window := by
  induction n with
  | zero => intro row s; exact ⟨s, rfl, rfl⟩
  | succ n ih =>
    intro row s
    obtain ⟨s1, h1, hw1⟩ := paint_cell_still rain rows row col s hr hf hu
    obtain ⟨s2, h2, hw2⟩ := ih (row + 1) s1
    exact ⟨s2, by simp only [paint_rows, h1, h2], hw2.trans hw1⟩

theorem paint_spawn_still (rain : Rain) (col : Nat) (s : World)
    (hd : rain.m_density = 0) (hu : ∀ i, 0 ≤ rain.m_generator i) :
    ∃ s1, paint_spawn rain col s = Except.ok s1 ∧ s1.window = s.window := by
  have h0 : ∀ i, ¬ rain.m_generator i < 0 := fun i => not_lt.mpr (hu i)
  simp [paint_spawn, should_add_drop, m_distribution, hd, h0]

theorem paint_cols_still (rain : Rain) (rows : Nat)
    (hd : rain.m_density = 0) (hr : rain.m_roll_rate = 0) (hf : rain.m_fade_rate = 0)
    (hu : ∀ i, 0 ≤ rain.m_generator i) (n : Nat) :
    ∀ (col : Nat) (s : World),
      ∃ s1, paint_cols rain rows n col s = Except.ok s1 ∧ s1.window = s.window := by
  induction n with
  | zero => intro col s; exact ⟨s, rfl, rfl⟩
  | succ n ih =>
    intro col s
    obtain ⟨s1, h1, hw1⟩ := paint_rows_still rain rows col hr hf hu rows 0 s
    obtain ⟨s2, h2, hw2⟩ := paint_spawn_still rain col s1 hd hu
    obtain ⟨s3, h3, hw3⟩ := ih (col + 1) s2
    exact ⟨s3, by simp only [paint_cols, paint_col, h1, h2, h3], hw3.trans (hw2.trans hw1)⟩

theorem paint_still (rain : Rain) (s : World)
    (hd : rain.m_density = 0) (hr : rain.m_roll_rate = 0) (hf : rain.m_fade_rate = 0)
    (hu : ∀ i, 0 ≤ rain.m_generator i) :
    ∃ s1, paint rain s = Except.ok s1 ∧ s1.window = s.window :=
  paint_cols_still rain s.window.rows hd hr hf hu s.window.cols 0 s

/-- Claim C1: with density, roll rate and fade rate all zero, for every surface and every
stream of draws in [0,1), one call of paint returns and leaves the window (dimensions, and
the glyph and color pair of every cell) as it was, and so does any number of calls. -/
theorem C1_probability_zero_is_noop (rain : Rain) (s : World)
    (hd : rain.m_density = 0) (hr : rain.m_roll_rate = 0) (hf : rain.m_fade_rate = 0)
    (hu : ∀ i, 0 ≤ rain.m_generator i ∧ rain.m_generator i < 1) :
    (∃ s1, paint rain s = Except.ok s1 ∧
      ∀ row col, (s1.window.cell row col).pair = (s.window.cell row col).pair ∧
        (s1.window.cell row col).glyph = (s.window.cell row col).glyph) ∧
    ∀ n : Nat, ∃ sn, paint_frames rain n s = Except.ok sn ∧
      ∀ row col, (sn.window.cell row col).pair = (s.window.cell row col).pair ∧
        (sn.window.cell row col).glyph = (s.window.cell row col).glyph := by
  have hu0 : ∀ i, 0 ≤ rain.m_generator i := fun i => (hu i).1
  have frames : ∀ (n : Nat) (s : World),
      ∃ sn, paint_frames rain n s = Except.ok sn ∧ sn.window = s.window := by
    intro n
    induction n with
    | zero => intro s; exact ⟨s, rfl, rfl⟩
    | succ n ih =>
      intro s
      obtain ⟨s1, h1, hw1⟩ := paint_still rain s hd hr hf hu0
      obtain ⟨s2, h2, hw2⟩ := ih s1
      exact ⟨s2, by simp only [paint_frames, h1, h2], hw2.trans hw1⟩
  constructor
  · obtain ⟨s1, h1, hw1⟩ := paint_still rain s hd hr hf hu0
    exact ⟨s1, h1, fun row col => by rw [hw1]; exact ⟨rfl, rfl⟩⟩
  · intro n
    obtain ⟨sn, hn, hwn⟩ := frames n s
    exact ⟨sn, hn, fun row col => by rw [hwn]; exact ⟨rfl, rfl⟩⟩

/-- Claim C1 at a 2 x 2 surface holding a head and a cell outside the reserved range. -/
theorem C1_probability_zero_is_noop_witness :
    (∃ s1, paint rain_still world_mixed = Except.ok s1 ∧
      ∀ row col, (s1.window.cell row col).pair = (world_mixed.window.cell row col).pair ∧
        (s1.window.cell row col).glyph = (world_mixed.window.cell row col).glyph) ∧
    ∀ n : Nat, ∃ sn, paint_frames rain_still n world_mixed = Except.ok sn ∧
      ∀ row col, (sn.window.cell row col).pair = (world_mixed.window.cell row col).pair ∧
        (sn.window.cell row col).glyph = (world_mixed.window.cell row col).glyph :=
  C1_probability_zero_is_noop rain_still world_mixed rfl rfl rfl
    (fun _ => by norm_num [rain_still])

/-! ## The palette snapshot -/

theorem mem_map_insert {V : Type} (k : Nat) (v : V) (l : List (Nat × V)) (x : Nat × V)
    (hx : x ∈ map_insert k v l) : x = (k, v) ∨ x ∈ l := by
  induction l with
  | nil => simpa [map_insert] using hx
  | cons hd tl ih =>
    obtain ⟨k0, v0⟩ := hd
    simp only [map_insert] at hx
    split at hx
    · simpa using hx
    · split at hx
      · exact Or.inr hx
      · rcases List.mem_cons.mp hx with h | h
        · exact Or.inr (by simp [h])
        · rcases ih h with h1 | h1
          · exact Or.inl h1
          · exact Or.inr (List.mem_cons_of_mem _ h1)

theorem key_mem_map_insert {V : Type} (k : Nat) (v : V) (l : List (Nat × V)) :
    k ∈ (map_insert k v l).map Prod.fst := by
  induction l with
  | nil => simp [map_insert]
  | cons hd tl ih =>
    obtain ⟨k0, v0⟩ := hd
    simp only [map_insert]
    split
    · simp
    · split
      · rename_i h; simp [h]
      · simp only [List.map_cons, List.mem_cons]; exact Or.inr ih

theorem keys_subset_map_insert {V : Type} (k : Nat) (v : V) (l : List (Nat × V)) (j : Nat)
    (hj : j ∈ l.map Prod.fst) : j ∈ (map_insert k v l).map Prod.fst := by
  induction l with
  | nil => simp at hj
  | cons hd tl ih =>
    obtain ⟨k0, v0⟩ := hd
    simp only [map_insert]
    split
    · simp only [List.map_cons, List.mem_cons] at hj ⊢; exact Or.inr hj
    · split
      · exact hj
      · simp only [List.map_cons, List.mem_cons] at hj ⊢
        rcases hj with h | h
        · exact Or.inl h
        · exact Or.inr (ih h)

/-- The entries saved by the snapshot loop are the definitions found in the palette, and
every identifier the loop visits has an entry. -/
theorem save_loop_spec (s : World) (n : Nat) :
    ∀ (i : Nat) (saved : List (Nat × RGB) × List (Nat × FgBg)),
      (∀ x ∈ saved.1, x.2 = s.palette.color x.1) →
      (∀ x ∈ saved.2, x.2 = s.palette.pair x.1) →
      (∀ x ∈ (save_loop s n i saved).1, x.2 = s.palette.color x.1) ∧
      (∀ x ∈ (save_loop s n i saved).2, x.2 = s.palette.pair x.1) ∧
      (∀ j, i ≤ j → j < i + n → j ∈ (save_loop s n i saved).1.map Prod.fst ∧
        j ∈ (save_loop s n i saved).2.map Prod.fst) ∧
      (∀ j, j ∈ saved.1.map Prod.fst → j ∈ (save_loop s n i saved).1.map Prod.fst) ∧
      (∀ j, j ∈ saved.2.map Prod.fst → j ∈ (save_loop s n i saved).2.map Prod.fst) := by
  induction n with
  | zero =>
    intro i saved h1 h2
    refine ⟨h1, h2, ?_, fun j hj => hj, fun j hj => hj⟩
    intro j hij hjn
    omega
  | succ n ih =>
    intro i saved h1 h2
    have hs1 : ∀ x ∈ map_insert i (color_content i s) saved.1, x.2 = s.palette.color x.1 := by
      intro x hx
      rcases mem_map_insert _ _ _ _ hx with h | h
      · rw [h]; rfl
      · exact h1 x h
    have hs2 : ∀ x ∈ map_insert i (pair_content i s) saved.2, x.2 = s.palette.pair x.1 := by
      intro x hx
      rcases mem_map_insert _ _ _ _ hx with h | h
      · rw [h]; rfl
      · exact h2 x h
    obtain ⟨a, b, c, d, e⟩ := ih (i + 1)
      (map_insert i (color_content i s) saved.1, map_insert i (pair_content i s) saved.2) hs1 hs2
    refine ⟨a, b, ?_, ?_, ?_⟩
    · intro j hij hjn
      rcases Nat.eq_or_lt_of_le hij with h | h
      · subst h
        exact ⟨d _ (key_mem_map_insert _ _ _), e _ (key_mem_map_insert _ _ _)⟩
      · exact c j (by omega) (by omega)
    · intro j hj
      exact d j (keys_subset_map_insert _ _ _ _ hj)
    · intro j hj
      exact e j (keys_subset_map_insert _ _ _ _ hj)

theorem restore_colors_pair (l : List (Nat × RGB)) :
    ∀ s : World, (restore_colors l s).palette.pair = s.palette.pair := by
  induction l with
  | nil => intro s; rfl
  | cons hd tl ih =>
    obtain ⟨k, r, g, b⟩ := hd
    intro s
    simp only [restore_colors]
    rw [ih]
    rfl

theorem restore_pairs_color (l : List (Nat × FgBg)) :
    ∀ s : World, (restore_pairs l s).palette.color = s.palette.color := by
  induction l with
  | nil => intro s; rfl
  | cons hd tl ih =>
    obtain ⟨k, fg, bg⟩ := hd
    intro s
    simp only [restore_pairs]
    rw [ih]
    rfl

/-- Redefining the saved color indices from entries that agree with a table f leaves the
saved identifiers at f and the others as they were. -/
theorem restore_colors_color (f : Nat → RGB) (l : List (Nat × RGB)) :
    ∀ s : World, (∀ x ∈ l, x.2 = f x.1) → ∀ j,
      (restore_colors l s).palette.color j =
        if j ∈ l.map Prod.fst then f j else s.palette.color j := by
  induction l with
  | nil => intro s _ j; simp [restore_colors]
  | cons hd tl ih =>
    obtain ⟨k, r, g, b⟩ := hd
    intro s hl j
    have hk : (r, g, b) = f k := hl (k, r, g, b) (List.mem_cons_self _ _)
    simp only [restore_colors]
    rw [ih _ (fun x hx => hl x (List.mem_cons_of_mem _ hx)) j]
    by_cases hj : j ∈ tl.map Prod.fst
    · simp [hj]
    · by_cases hjk : j = k
      · subst hjk; simp [hj, init_color, hk]
      · simp [hj, hjk, init_color]

/-- Redefining the saved color pairs from entries that agree with a table f leaves the
saved identifiers at f and the others as they were. -/
theorem restore_pairs_pair (f : Nat → FgBg) (l : List (Nat × FgBg)) :
    ∀ s : World, (∀ x ∈ l, x.2 = f x.1) → ∀ j,
      (restore_pairs l s).palette.pair j =
        if j ∈ l.map Prod.fst then f j else s.palette.pair j := by
  induction l with
  | nil => intro s _ j; simp [restore_pairs]
  | cons hd tl ih =>
    obtain ⟨k, fg, bg⟩ := hd
    intro s hl j
    have hk : (fg, bg) = f k := hl (k, fg, bg) (List.mem_cons_self _ _)
    simp only [restore_pairs]
    rw [ih _ (fun x hx => hl x (List.mem_cons_of_mem _ hx)) j]
    by_cases hj : j ∈ tl.map Prod.fst
    · simp [hj]
    · by_cases hjk : j = k
      · subst hjk; simp [hj, init_pair, hk]
      · simp [hj, hjk, init_pair]

/-- The destructor of an engine built on the world s0 puts every identifier of the reserved
range back to its definition in s0, whatever the palette has become. -/
theorem dtor_restores (density roll_rate fade_rate : ℚ) (generator : Nat → ℚ)
    (character_set : List Int) (s0 s : World) (i : Nat)
    (h1 : m_begin_gradient_color_pair ≤ i) (h2 : i ≤ m_highlight_color_pair) :
    ((Rain.ctor density roll_rate fade_rate generator character_set s0).1.dtor s).palette.color i
        = s0.palette.color i ∧
    ((Rain.ctor density roll_rate fade_rate generator character_set s0).1.dtor s).palette.pair i
        = s0.palette.pair i := by
  obtain ⟨a, b, c, _, _⟩ := save_loop_spec s0
    (m_highlight_color_pair + 1 - m_begin_gradient_color_pair) m_begin_gradient_color_pair
    ([], []) (by simp) (by simp)
  have hi := c i h1 (by simp only [m_highlight_color_pair, m_begin_gradient_color_pair] at *; omega)
  constructor
  · simp only [Rain.dtor, Rain.ctor]
    rw [restore_pairs_color, restore_colors_color s0.palette.color _ _ a i, if_pos hi.1]
  · simp only [Rain.dtor, Rain.ctor]
    rw [restore_pairs_pair s0.palette.pair _ _ b i, if_pos hi.2]

/-! ## Loops and totality -/

/-- An invariant indexed by the row passes through the inner loop of paint. -/
theorem paint_rows_induct (rain : Rain) (rows col : Nat) (P : Nat → World → Prop)
    (step : ∀ row s, row < rows → P row s →
      ∃ s1, paint_cell rain rows row col s = Except.ok s1 ∧ P (row + 1) s1) (n : Nat) :
    ∀ (row : Nat) (s : World), row + n ≤ rows → P row s →
      ∃ s1, paint_rows rain rows col n row s = Except.ok s1 ∧ P (row + n) s1 := by
  induction n with
  | zero => intro row s _ hP; exact ⟨s, rfl, hP⟩
  | succ n ih =>
    intro row s hle hP
    obtain ⟨s1, h1, hP1⟩ := step row s (by omega) hP
    obtain ⟨s2, h2, hP2⟩ := ih (row + 1) s1 (by omega) hP1
    refine ⟨s2, by simp only [paint_rows, h1, h2], ?_⟩
    have e : row + (n + 1) = row + 1 + n := by omega
    rw [e]
    exact hP2

/-- An invariant indexed by the column passes through the outer loop of paint. -/
theorem paint_cols_induct (rain : Rain) (rows cols : Nat) (P : Nat → World → Prop)
    (step : ∀ col s, col < cols → P col s →
      ∃ s1, paint_col rain rows col s = Except.ok s1 ∧ P (col + 1) s1) (n : Nat) :
    ∀ (col : Nat) (s : World), col + n ≤ cols → P col s →
      ∃ s1, paint_cols rain rows n col s = Except.ok s1 ∧ P (col + n) s1 := by
  induction n with
  | zero => intro col s _ hP; exact ⟨s, rfl, hP⟩
  | succ n ih =>
    intro col s hle hP
    obtain ⟨s1, h1, hP1⟩ := step col s (by omega) hP
    obtain ⟨s2, h2, hP2⟩ := ih (col + 1) s1 (by omega) hP1
    refine ⟨s2, by simp only [paint_cols, h1, h2], ?_⟩
    have e : col + (n + 1) = col + 1 + n := by omega
    rw [e]
    exact hP2

/-- With a non-empty character set and a draw in [0,1) the lookup of get_random_character
succeeds and yields a member of the set. -/
theorem get_random_character_ok (rain : Rain) (s : World)
    (hc : rain.m_character_set ≠ [])
    (h0 : 0 ≤ rain.m_generator s.drawn) (h1 : rain.m_generator s.drawn < 1) :
    ∃ ch, ch ∈ rain.m_character_set ∧
      get_random_character rain s = Except.ok (ch, { s with drawn := s.drawn + 1 }) := by
  have hlen : 0 < rain.m_character_set.length := List.length_pos.mpr hc
  have hq : (0 : ℚ) < (rain.m_character_set.length : ℚ) := by exact_mod_cast hlen
  have hlt : Nat.floor (rain.m_generator s.drawn * (rain.m_character_set.length : ℚ))
      < rain.m_character_set.length := by
    rw [Nat.floor_lt (mul_nonneg h0 (le_of_lt hq))]
    nlinarith
  refine ⟨rain.m_character_set[Nat.floor
    (rain.m_generator s.drawn * (rain.m_character_set.length : ℚ))], List.getElem_mem _, ?_⟩
  simp [get_random_character, m_distribution, List.getElem?_eq_getElem hlt]

/-- Whenever get_random_character returns, it returns a member of the character set and
has consumed one draw. -/
theorem get_random_character_inv (rain : Rain) (s : World) (ch : Int) (s1 : World)
    (h : get_random_character rain s = Except.ok (ch, s1)) :
    ch ∈ rain.m_character_set ∧ s1 = { s with drawn := s.drawn + 1 } := by
  simp only [get_random_character, m_distribution] at h
  split at h
  · rename_i c hc
    simp only [Except.ok.injEq, Prod.mk.injEq] at h
    obtain ⟨h1, h2⟩ := h
    subst h1
    exact ⟨List.getElem?_mem hc, h2.symm⟩
  · simp at h

/-- Whenever highlight returns, it has written a head with a glyph of the character set
and consumed one draw. -/
theorem highlight_inv (rain : Rain) (row col : Nat) (s s1 : World)
    (h : highlight rain row col s = Except.ok s1) :
    ∃ ch, ch ∈ rain.m_character_set ∧
      s1 = mvwaddch row col { glyph := ch, pair := m_highlight_color_pair }
        { s with drawn := s.drawn + 1 } := by
  simp only [highlight] at h
  split at h
  · rename_i ch s2 hg
    obtain ⟨hm, hs⟩ := get_random_character_inv rain s ch s2 hg
    simp only [Except.ok.injEq] at h
    exact ⟨ch, hm, by rw [← h, hs]⟩
  · simp at h

/-- With a non-empty character set and a draw in [0,1), highlight returns. -/
theorem highlight_ok (rain : Rain) (row col : Nat) (s : World)
    (hc : rain.m_character_set ≠ [])
    (h0 : 0 ≤ rain.m_generator s.drawn) (h1 : rain.m_generator s.drawn < 1) :
    ∃ s1, highlight rain row col s = Except.ok s1 := by
  obtain ⟨ch, _, hg⟩ := get_random_character_ok rain s hc h0 h1
  simp only [highlight, hg]
  exact ⟨_, rfl⟩

/-- With a non-empty character set and draws in [0,1), the visit of a cell returns. -/
theorem paint_cell_ok (rain : Rain) (rows row col : Nat) (s : World)
    (hc : rain.m_character_set ≠ [])
    (hu : ∀ i, 0 ≤ rain.m_generator i ∧ rain.m_generator i < 1) :
    ∃ s1, paint_cell rain rows row col s = Except.ok s1 := by
  simp only [paint_cell]
  split
  · split
    · split
      · exact highlight_ok rain _ _ _ hc (hu _).1 (hu _).2
      · exact ⟨_, rfl⟩
    · exact ⟨_, rfl⟩
  · split
    · exact ⟨_, rfl⟩
    · exact ⟨_, rfl⟩

/-- With a non-empty character set and draws in [0,1), the spawn check returns. -/
theorem paint_spawn_ok (rain : Rain) (col : Nat) (s : World)
    (hc : rain.m_character_set ≠ [])
    (hu : ∀ i, 0 ≤ rain.m_generator i ∧ rain.m_generator i < 1) :
    ∃ s1, paint_spawn rain col s = Except.ok s1 := by
  simp only [paint_spawn]
  split
  · split
    · exact highlight_ok rain _ _ _ hc (hu _).1 (hu _).2
    · exact ⟨_, rfl⟩
  · exact ⟨_, rfl⟩

/-- With a non-empty character set and draws in [0,1), the visit of a column returns. -/
theorem paint_col_ok (rain : Rain) (rows col : Nat) (s : World)
    (hc : rain.m_character_set ≠ [])
    (hu : ∀ i, 0 ≤ rain.m_generator i ∧ rain.m_generator i < 1) :
    ∃ s1, paint_col rain rows col s = Except.ok s1 := by
  obtain ⟨s1, h1, _⟩ := paint_rows_induct rain rows col (fun _ _ => True)
    (fun row s _ _ => by
      obtain ⟨s1, h⟩ := paint_cell_ok rain rows row col s hc hu
      exact ⟨s1, h, trivial⟩) rows 0 s (by omega) trivial
  obtain ⟨s2, h2⟩ := paint_spawn_ok rain col s1 hc hu
  exact ⟨s2, by simp only [paint_col, h1, h2]⟩

/-- With a non-empty character set and draws in [0,1), paint returns. -/
theorem paint_ok (rain : Rain) (s : World)
    (hc : rain.m_character_set ≠ [])
    (hu : ∀ i, 0 ≤ rain.m_generator i ∧ rain.m_generator i < 1) :
    ∃ s1, paint rain s = Except.ok s1 := by
  obtain ⟨s1, h1, _⟩ := paint_cols_induct rain s.window.rows s.window.cols (fun _ _ => True)
    (fun col t _ _ => by
      obtain ⟨s1, h⟩ := paint_col_ok rain s.window.rows col t hc hu
      exact ⟨s1, h, trivial⟩) s.window.cols 0 s (by omega) trivial
  exact ⟨s1, h1⟩

/-- With a non-empty character set and draws in [0,1), any number of frames returns. -/
theorem paint_frames_ok (rain : Rain) (hc : rain.m_character_set ≠ [])
    (hu : ∀ i, 0 ≤ rain.m_generator i ∧ rain.m_generator i < 1) (n : Nat) :
    ∀ s : World, ∃ s1, paint_frames rain n s = Except.ok s1 := by
  induction n with
  | zero => intro s; exact ⟨s, rfl⟩
  | succ n ih =>
    intro s
    obtain ⟨s1, h1⟩ := paint_ok rain s hc hu
    obtain ⟨s2, h2⟩ := ih s1
    exact ⟨s2, by simp only [paint_frames, h1, h2]⟩

/-- Claim C2: for every initial palette and every number n of frames, whenever the
lifecycle (constructor, n calls of paint, destructor) runs to its end, every color index and
every color pair in the reserved range [m_begin_gradient_color_pair, m_highlight_color_pair]
is defined as before construction; and the lifecycle does run to its end when the character
set is non-empty and the draws lie in [0,1). -/
theorem C2_palette_restoration (density roll_rate fade_rate : ℚ) (generator : Nat → ℚ)
    (character_set : List Int) (n : Nat) (s : World) :
    (∀ s1, lifecycle density roll_rate fade_rate generator character_set n s = Except.ok s1 →
      ∀ i, m_begin_gradient_color_pair ≤ i → i ≤ m_highlight_color_pair →
        s1.palette.color i = s.palette.color i ∧ s1.palette.pair i = s.palette.pair i) ∧
    (character_set ≠ [] → (∀ i, 0 ≤ generator i ∧ generator i < 1) →
      ∃ s1, lifecycle density roll_rate fade_rate generator character_set n s
        = Except.ok s1) := by
  constructor
  · intro s1 h i h1 h2
    simp only [lifecycle] at h
    split at h
    · simp only [Except.ok.injEq] at h
      rw [← h]
      exact dtor_restores density roll_rate fade_rate generator character_set s _ i h1 h2
    · simp at h
  · intro hc hu
    obtain ⟨s2, h2⟩ := paint_frames_ok
      (Rain.ctor density roll_rate fade_rate generator character_set s).1 hc hu n
      (Rain.ctor density roll_rate fade_rate generator character_set s).2
    simp only [lifecycle, h2]
    exact ⟨_, rfl⟩

/-- Claim C2 at a concrete palette and surface, three frames. -/
theorem C2_palette_restoration_witness :
    ∃ s1, lifecycle (1 / 1000) (2 / 5) (1 / 5) (fun _ => 1 / 2) [65, 66, 67] 3 world_mixed
        = Except.ok s1 ∧
      ∀ i, m_begin_gradient_color_pair ≤ i → i ≤ m_highlight_color_pair →
        s1.palette.color i = world_mixed.palette.color i ∧
        s1.palette.pair i = world_mixed.palette.pair i := by
  obtain ⟨h1, h2⟩ := C2_palette_restoration (1 / 1000) (2 / 5) (1 / 5) (fun _ => 1 / 2)
    [65, 66, 67] 3 world_mixed
  obtain ⟨s1, hs⟩ := h2 (by simp) (fun _ => by norm_num)
  exact ⟨s1, hs, h1 s1 hs⟩

/-! ## The effect of fade and highlight -/

theorem fade_window_cell (row col : Nat) (s : World) (r c : Nat) :
    (fade row col s).window.cell r c =
      if r = row ∧ c = col then
        { glyph := (s.window.cell row col).glyph
          pair := if (s.window.cell row col).pair > m_begin_gradient_color_pair
            then (s.window.cell row col).pair - 1 else m_begin_gradient_color_pair }
      else s.window.cell r c := by
  simp only [fade, mvwinch, mvwchgat, PAIR_NUMBER]
  by_cases h : r = row ∧ c = col
  · obtain ⟨h1, h2⟩ := h
    subst h1 h2
    simp
  · have h2 : ¬ (r = row ∧ col ≤ c ∧ c < col + 1) := by
      intro ⟨a, b, d⟩
      exact h ⟨a, by omega⟩
    rw [if_neg h, if_neg h2]

theorem fade_window_rows (row col : Nat) (s : World) :
    (fade row col s).window.rows = s.window.rows := rfl

theorem fade_window_cols (row col : Nat) (s : World) :
    (fade row col s).window.cols = s.window.cols := rfl

theorem fade_palette (row col : Nat) (s : World) : (fade row col s).palette = s.palette := rfl

theorem fade_drawn (row col : Nat) (s : World) : (fade row col s).drawn = s.drawn := rfl

theorem fade_trace (row col : Nat) (s : World) :
    (fade row col s).trace = s.trace ++ [Touch.read row col, Touch.recolor row col] := by
  simp [fade, mvwinch, mvwchgat]

/-- Claim C3: when the visit of a cell in the last row finds a head and the roll draw
succeeds, the visit returns, the cell has color pair m_highlight_color_pair - 1 (the brightest
trail level) and its old glyph, every other cell of the surface (row 0 and the rows at or
beyond the height included) is as before, and the only accesses are two reads and one
attribute change of that very cell, so no row index at or beyond the height is touched. -/
theorem C3_boundary_termination (rain : Rain) (row col : Nat) (s : World)
    (hlast : row + 1 = s.window.rows)
    (hhead : (s.window.cell row col).pair = m_highlight_color_pair)
    (hroll : rain.m_generator s.drawn < rain.m_roll_rate) :
    ∃ s1, paint_cell rain s.window.rows row col s = Except.ok s1 ∧
      (s1.window.cell row col).pair = m_highlight_color_pair - 1 ∧
      (s1.window.cell row col).pair = 20 ∧
      (s1.window.cell row col).glyph = (s.window.cell row col).glyph ∧
      (∀ r c, ¬ (r = row ∧ c = col) → s1.window.cell r c = s.window.cell r c) ∧
      s1.trace = s.trace ++
        [Touch.read row col, Touch.read row col, Touch.recolor row col] ∧
      (∀ t, t ∈ s1.trace → t ∈ s.trace ∨ (t.row = row ∧ t.col = col ∧ t.row < s.window.rows)) := by
  have hnot : ¬ (row + 1 < s.window.rows) := by omega
  refine ⟨fade row col { s with
      trace := s.trace ++ [Touch.read row col], drawn := s.drawn + 1 }, ?_, ?_, ?_, ?_, ?_, ?_, ?_⟩
  · simp [paint_cell, is_drop, mvwinch, PAIR_NUMBER, hhead, should_roll_drop, m_distribution,
      hroll, hnot]
  · simp [fade_window_cell, hhead, m_highlight_color_pair, m_begin_gradient_color_pair,
      m_gradient_steps]
  · simp [fade_window_cell, hhead, m_highlight_color_pair, m_begin_gradient_color_pair,
      m_gradient_steps]
  · simp [fade_window_cell]
  · intro r c h
    simp [fade_window_cell, h]
  · simp [fade_trace]
  · intro t ht
    simp only [fade_trace, List.append_assoc, List.mem_append, List.mem_cons,
      List.mem_singleton, List.not_mem_nil, or_false, List.singleton_append] at ht
    rcases ht with h | h | h | h
    · exact Or.inl h
    · subst h; exact Or.inr ⟨rfl, rfl, by simp only [Touch.row]; omega⟩
    · subst h; exact Or.inr ⟨rfl, rfl, by simp only [Touch.row]; omega⟩
    · subst h; exact Or.inr ⟨rfl, rfl, by simp only [Touch.row]; omega⟩

/-- Claim C3 at a head in the last row of a 2 x 1 surface. -/
theorem C3_boundary_termination_witness :
    ∃ s1, paint_cell rain_rolling world_bottom_head.window.rows 1 0 world_bottom_head
        = Except.ok s1 ∧
      (s1.window.cell 1 0).pair = m_highlight_color_pair - 1 ∧
      (s1.window.cell 1 0).pair = 20 ∧
      (s1.window.cell 1 0).glyph = (world_bottom_head.window.cell 1 0).glyph ∧
      (∀ r c, ¬ (r = 1 ∧ c = 0) → s1.window.cell r c = world_bottom_head.window.cell r c) ∧
      s1.trace = world_bottom_head.trace ++
        [Touch.read 1 0, Touch.read 1 0, Touch.recolor 1 0] ∧
      (∀ t, t ∈ s1.trace → t ∈ world_bottom_head.trace ∨
        (t.row = 1 ∧ t.col = 0 ∧ t.row < world_bottom_head.window.rows)) :=
  C3_boundary_termination rain_rolling 1 0 world_bottom_head rfl rfl
    (by norm_num [rain_rolling])

/-! ## The cases of a visit -/

theorem paint_cell_roll (rain : Rain) (rows row col : Nat) (s : World)
    (hhead : (s.window.cell row col).pair = m_highlight_color_pair)
    (hroll : rain.m_generator s.drawn < rain.m_roll_rate) (hrow : row + 1 < rows) :
    paint_cell rain rows row col s
      = highlight rain (row + 1) col (fade row col (checked row col s)) := by
  simp [paint_cell, is_drop, mvwinch, PAIR_NUMBER, hhead, should_roll_drop, m_distribution,
    hroll, hrow, checked]

theorem paint_cell_roll_last (rain : Rain) (rows row col : Nat) (s : World)
    (hhead : (s.window.cell row col).pair = m_highlight_color_pair)
    (hroll : rain.m_generator s.drawn < rain.m_roll_rate) (hrow : ¬ row + 1 < rows) :
    paint_cell rain rows row col s = Except.ok (fade row col (checked row col s)) := by
  simp [paint_cell, is_drop, mvwinch, PAIR_NUMBER, hhead, should_roll_drop, m_distribution,
    hroll, hrow, checked]

theorem paint_cell_stay (rain : Rain) (rows row col : Nat) (s : World)
    (hhead : (s.window.cell row col).pair = m_highlight_color_pair)
    (hroll : ¬ rain.m_generator s.drawn < rain.m_roll_rate) :
    paint_cell rain rows row col s = Except.ok (checked row col s) := by
  simp [paint_cell, is_drop, mvwinch, PAIR_NUMBER, hhead, should_roll_drop, m_distribution,
    hroll, checked]

theorem paint_cell_fade (rain : Rain) (rows row col : Nat) (s : World)
    (hhead : (s.window.cell row col).pair ≠ m_highlight_color_pair)
    (hfade : rain.m_generator s.drawn < rain.m_fade_rate) :
    paint_cell rain rows row col s = Except.ok (fade row col (checked row col s)) := by
  simp [paint_cell, is_drop, mvwinch, PAIR_NUMBER, Ne.symm hhead, should_fade, m_distribution,
    hfade, checked]

theorem paint_cell_keep (rain : Rain) (rows row col : Nat) (s : World)
    (hhead : (s.window.cell row col).pair ≠ m_highlight_color_pair)
    (hfade : ¬ rain.m_generator s.drawn < rain.m_fade_rate) :
    paint_cell rain rows row col s = Except.ok (checked row col s) := by
  simp [paint_cell, is_drop, mvwinch, PAIR_NUMBER, Ne.symm hhead, should_fade, m_distribution,
    hfade, checked]

theorem paint_spawn_skip (rain : Rain) (col : Nat) (s : World)
    (hadd : ¬ rain.m_generator s.drawn < rain.m_density) :
    paint_spawn rain col s = Except.ok { s with drawn := s.drawn + 1 } := by
  simp [paint_spawn, should_add_drop, m_distribution, hadd]

theorem paint_spawn_occupied (rain : Rain) (col : Nat) (s : World)
    (hadd : rain.m_generator s.drawn < rain.m_density)
    (hhead : (s.window.cell 0 col).pair = m_highlight_color_pair) :
    paint_spawn rain col s = Except.ok (checked 0 col s) := by
  simp [paint_spawn, should_add_drop, m_distribution, hadd, is_drop, mvwinch, PAIR_NUMBER,
    hhead, checked]

theorem paint_spawn_add (rain : Rain) (col : Nat) (s : World)
    (hadd : rain.m_generator s.drawn < rain.m_density)
    (hhead : (s.window.cell 0 col).pair ≠ m_highlight_color_pair) :
    paint_spawn rain col s = highlight rain 0 col (checked 0 col s) := by
  simp [paint_spawn, should_add_drop, m_distribution, hadd, is_drop, mvwinch, PAIR_NUMBER,
    Ne.symm hhead, checked]

theorem mvwaddch_cell (row col : Nat) (ch : chtype) (s : World) (r c : Nat) :
    (mvwaddch row col ch s).window.cell r c =
      if r = row ∧ c = col then ch else s.window.cell r c := rfl

theorem checked_window (row col : Nat) (s : World) : (checked row col s).window = s.window :=
  rfl

theorem checked_drawn (row col : Nat) (s : World) : (checked row col s).drawn = s.drawn + 1 :=
  rfl

theorem checked_trace (row col : Nat) (s : World) :
    (checked row col s).trace = s.trace ++ [Touch.read row col] := rfl

/-- With a non-empty character set and a draw in [0,1), highlight writes a head whose
glyph belongs to the character set. -/
theorem highlight_spec (rain : Rain) (row col : Nat) (s : World)
    (hc : rain.m_character_set ≠ [])
    (h0 : 0 ≤ rain.m_generator s.drawn) (h1 : rain.m_generator s.drawn < 1) :
    ∃ ch, ch ∈ rain.m_character_set ∧
      highlight rain row col s =
        Except.ok (mvwaddch row col { glyph := ch, pair := m_highlight_color_pair }
          { s with drawn := s.drawn + 1 }) := by
  obtain ⟨ch, hm, hg⟩ := get_random_character_ok rain s hc h0 h1
  exact ⟨ch, hm, by simp only [highlight, hg]⟩

/-! ## The 1 x 1 scenario -/

/-- On a 1 x 1 surface whose cell is a head, with density 1 and roll rate 1, a frame
demotes the head and the spawn check writes a new head in its place. -/
theorem paint_one_cell_head (rain : Rain) (s : World)
    (hd : rain.m_density = 1) (hr : rain.m_roll_rate = 1)
    (hc : rain.m_character_set ≠ [])
    (hu : ∀ i, 0 ≤ rain.m_generator i ∧ rain.m_generator i < 1)
    (hrows : s.window.rows = 1) (hcols : s.window.cols = 1)
    (hhead : (s.window.cell 0 0).pair = m_highlight_color_pair) :
    ∃ s1, paint rain s = Except.ok s1 ∧ s1.window.rows = 1 ∧ s1.window.cols = 1 ∧
      (s1.window.cell 0 0).pair = m_highlight_color_pair ∧
      (s1.window.cell 0 0).glyph ∈ rain.m_character_set ∧
      s1.trace = s.trace ++ [Touch.read 0 0, Touch.read 0 0, Touch.recolor 0 0,
        Touch.read 0 0, Touch.write 0 0] := by
  have hroll : ∀ i, rain.m_generator i < rain.m_roll_rate := fun i => by rw [hr]; exact (hu i).2
  have hadd : ∀ i, rain.m_generator i < rain.m_density := fun i => by rw [hd]; exact (hu i).2
  simp only [paint, getmaxyx, hrows, hcols, paint_cols, paint_col, paint_rows]
  rw [paint_cell_roll_last rain 1 0 0 s hhead (hroll _) (by omega)]
  simp only
  have h20 : ((fade 0 0 (checked 0 0 s)).window.cell 0 0).pair ≠ m_highlight_color_pair := by
    simp [fade_window_cell, checked_window, hhead, m_highlight_color_pair,
      m_begin_gradient_color_pair, m_gradient_steps]
  rw [paint_spawn_add rain 0 _ (hadd _) h20]
  obtain ⟨ch, hm, hh⟩ := highlight_spec rain 0 0 (checked 0 0 (fade 0 0 (checked 0 0 s))) hc
    (hu _).1 (hu _).2
  rw [hh]
  exact ⟨_, rfl, hrows, hcols, by simp [mvwaddch_cell], by simpa [mvwaddch_cell] using hm,
    by simp [mvwaddch, checked_trace, fade_trace]⟩

/-- On a 1 x 1 surface whose cell is not a head, with density 1 and fade rate 0, a frame
leaves the cell alone until the spawn check writes a head. -/
theorem paint_one_cell_free (rain : Rain) (s : World)
    (hd : rain.m_density = 1) (hf : rain.m_fade_rate = 0)
    (hc : rain.m_character_set ≠ [])
    (hu : ∀ i, 0 ≤ rain.m_generator i ∧ rain.m_generator i < 1)
    (hrows : s.window.rows = 1) (hcols : s.window.cols = 1)
    (hhead : (s.window.cell 0 0).pair ≠ m_highlight_color_pair) :
    ∃ s1, paint rain s = Except.ok s1 ∧ s1.window.rows = 1 ∧ s1.window.cols = 1 ∧
      (s1.window.cell 0 0).pair = m_highlight_color_pair ∧
      (s1.window.cell 0 0).glyph ∈ rain.m_character_set ∧
      s1.trace = s.trace ++ [Touch.read 0 0, Touch.read 0 0, Touch.write 0 0] := by
  have hadd : ∀ i, rain.m_generator i < rain.m_density := fun i => by rw [hd]; exact (hu i).2
  have hfade : ∀ i, ¬ rain.m_generator i < rain.m_fade_rate := fun i => by
    rw [hf]; exact not_lt.mpr (hu i).1
  simp only [paint, getmaxyx, hrows, hcols, paint_cols, paint_col, paint_rows]
  rw [paint_cell_keep rain 1 0 0 s hhead (hfade _)]
  simp only
  rw [paint_spawn_add rain 0 (checked 0 0 s) (hadd _) hhead]
  obtain ⟨ch, hm, hh⟩ := highlight_spec rain 0 0 (checked 0 0 (checked 0 0 s)) hc
    (hu _).1 (hu _).2
  rw [hh]
  exact ⟨_, rfl, hrows, hcols, by simp [mvwaddch_cell], by simpa [mvwaddch_cell] using hm,
    by simp [mvwaddch, checked_trace]⟩

/-- Claim C4: with density 1, roll rate 1, fade rate 0, a non-empty character set and a
1 x 1 surface at the background level (color pair 1), for all draws in [0,1): the first call
of paint returns with cell (0,0) a head whose glyph belongs to the character set, and the
second call returns with cell (0,0) a head again.  The traces tell how: the first frame
reads the cell twice and writes the head; the second frame demotes the head (read, read,
attribute change) and the spawn check writes a head anew (read, write). -/
theorem C4_one_cell_scenario (rain : Rain) (s : World)
    (hd : rain.m_density = 1) (hr : rain.m_roll_rate = 1) (hf : rain.m_fade_rate = 0)
    (hc : rain.m_character_set ≠ [])
    (hu : ∀ i, 0 ≤ rain.m_generator i ∧ rain.m_generator i < 1)
    (hrows : s.window.rows = 1) (hcols : s.window.cols = 1)
    (hbg : (s.window.cell 0 0).pair = m_begin_gradient_color_pair) :
    ∃ s1 s2, paint rain s = Except.ok s1 ∧ paint rain s1 = Except.ok s2 ∧
      (s1.window.cell 0 0).pair = m_highlight_color_pair ∧
      (s1.window.cell 0 0).glyph ∈ rain.m_character_set ∧
      (s2.window.cell 0 0).pair = m_highlight_color_pair ∧
      (s2.window.cell 0 0).glyph ∈ rain.m_character_set ∧
      (is_drop 0 0 s1).1 = true ∧ (is_drop 0 0 s2).1 = true ∧
      s1.trace = s.trace ++ [Touch.read 0 0, Touch.read 0 0, Touch.write 0 0] ∧
      s2.trace = s1.trace ++ [Touch.read 0 0, Touch.read 0 0, Touch.recolor 0 0,
        Touch.read 0 0, Touch.write 0 0] := by
  have hfree : (s.window.cell 0 0).pair ≠ m_highlight_color_pair := by
    rw [hbg]; decide
  obtain ⟨s1, h1, r1, c1, p1, g1, t1⟩ := paint_one_cell_free rain s hd hf hc hu hrows hcols hfree
  obtain ⟨s2, h2, _, _, p2, g2, t2⟩ := paint_one_cell_head rain s1 hd hr hc hu r1 c1 p1
  exact ⟨s1, s2, h1, h2, p1, g1, p2, g2, by simp [is_drop, mvwinch, PAIR_NUMBER, p1],
    by simp [is_drop, mvwinch, PAIR_NUMBER, p2], t1, t2⟩

/-- Claim C4 at the character set A, B, C and the constant draw 1/2. -/
theorem C4_one_cell_scenario_witness :
    ∃ s1 s2, paint rain_eager world_one = Except.ok s1 ∧ paint rain_eager s1 = Except.ok s2 ∧
      (s1.window.cell 0 0).pair = m_highlight_color_pair ∧
      (s1.window.cell 0 0).glyph ∈ rain_eager.m_character_set ∧
      (s2.window.cell 0 0).pair = m_highlight_color_pair ∧
      (s2.window.cell 0 0).glyph ∈ rain_eager.m_character_set ∧
      (is_drop 0 0 s1).1 = true ∧ (is_drop 0 0 s2).1 = true ∧
      s1.trace = world_one.trace ++ [Touch.read 0 0, Touch.read 0 0, Touch.write 0 0] ∧
      s2.trace = s1.trace ++ [Touch.read 0 0, Touch.read 0 0, Touch.recolor 0 0,
        Touch.read 0 0, Touch.write 0 0] :=
  C4_one_cell_scenario rain_eager world_one rfl rfl rfl (by simp [rain_eager])
    (fun _ => by norm_num [rain_eager]) rfl rfl rfl

/-! ## Fade steps and the encoding -/

/-- Claim C5: for a cell whose color pair encodes a trail level L in [0, G], fade sets the
cell to level max(0, L - 1): the new level is never above the old one, and the background
level 0 is a fixed point. -/
theorem C5_fade_step (row col : Nat) (s : World) (L : Nat) (hL : L ≤ G)
    (hp : (s.window.cell row col).pair = encode (Marker.level L)) :
    ((fade row col s).window.cell row col).pair = encode (Marker.level (L - 1)) ∧
    (((fade row col s).window.cell row col).pair : Int)
      = (m_begin_gradient_color_pair : Int) + max 0 ((L : Int) - 1) ∧
    decode ((fade row col s).window.cell row col).pair = some (Marker.level (L - 1)) ∧
    L - 1 ≤ L ∧
    (L = 0 → ((fade row col s).window.cell row col).pair = (s.window.cell row col).pair) := by
  have hG : L ≤ 19 := hL
  have h1 : ((fade row col s).window.cell row col).pair = encode (Marker.level (L - 1)) := by
    simp only [fade_window_cell, and_self, if_true, hp, encode, m_begin_gradient_color_pair]
    split <;> omega
  refine ⟨h1, ?_, ?_, by omega, ?_⟩
  · rw [h1]
    simp only [encode, m_begin_gradient_color_pair]
    omega
  · rw [h1]
    simp only [decode, encode, m_begin_gradient_color_pair, m_highlight_color_pair,
      m_gradient_steps]
    rw [if_neg (by omega), if_pos (by omega)]
    congr 2
    omega
  · intro h0
    rw [h1, hp, h0]

/-- Claim C5 at the trail level 7. -/
theorem C5_fade_step_witness :
    ((fade 0 0 world_trail).window.cell 0 0).pair = encode (Marker.level (7 - 1)) ∧
    (((fade 0 0 world_trail).window.cell 0 0).pair : Int)
      = (m_begin_gradient_color_pair : Int) + max 0 (((7 : Nat) : Int) - 1) ∧
    decode ((fade 0 0 world_trail).window.cell 0 0).pair = some (Marker.level (7 - 1)) ∧
    7 - 1 ≤ 7 ∧
    (7 = 0 → ((fade 0 0 world_trail).window.cell 0 0).pair
      = (world_trail.window.cell 0 0).pair) :=
  C5_fade_step 0 0 world_trail 7 (by decide) rfl

/-- Claim C8: decode inverts encode on every level in [0, G] and on the head; the G + 2 = 21
encoded identifiers are pairwise distinct and are exactly the identifiers of the saved
range [m_begin_gradient_color_pair, m_highlight_color_pair] = [1, 21]; and is_drop holds on
a cell carrying encode(x) exactly when x is the head. -/
theorem C8_encoding_bijective :
    (∀ x : Marker, x.valid → decode (encode x) = some x) ∧
    (∀ x y : Marker, x.valid → y.valid → encode x = encode y → x = y) ∧
    (∀ p : Nat, (m_begin_gradient_color_pair ≤ p ∧ p ≤ m_highlight_color_pair) ↔
      ∃ x : Marker, x.valid ∧ encode x = p) ∧
    (∀ p : Nat, (1 ≤ p ∧ p ≤ 21) ↔ ∃ x : Marker, x.valid ∧ encode x = p) ∧
    (m_highlight_color_pair + 1 - m_begin_gradient_color_pair = G + 2 ∧ G + 2 = 21) ∧
    (∀ x : Marker, x.valid → ∀ (s : World) (row col : Nat),
      (s.window.cell row col).pair = encode x →
        ((is_drop row col s).1 = true ↔ x = Marker.HEAD)) := by
  have range : ∀ p : Nat, (1 ≤ p ∧ p ≤ 21) ↔ ∃ x : Marker, x.valid ∧ encode x = p := by
    intro p
    constructor
    · intro ⟨h1, h2⟩
      by_cases hp : p = 21
      · exact ⟨Marker.HEAD, trivial, by rw [hp]; rfl⟩
      · refine ⟨Marker.level (p - 1), ?_, ?_⟩
        · show p - 1 ≤ 19
          omega
        · show 1 + (p - 1) = p
          omega
    · rintro ⟨x, hx, rfl⟩
      cases x with
      | level L =>
        have hL : L ≤ 19 := hx
        show 1 ≤ 1 + L ∧ 1 + L ≤ 21
        omega
      | HEAD => exact ⟨by decide, by decide⟩
  refine ⟨?_, ?_, range, range, ⟨rfl, rfl⟩, ?_⟩
  · intro x hx
    cases x with
    | level L =>
      have hL : L ≤ 19 := hx
      simp only [decode, encode, m_begin_gradient_color_pair, m_highlight_color_pair,
        m_gradient_steps]
      rw [if_neg (by omega), if_pos (by omega)]
      congr 2
      omega
    | HEAD => simp [decode, encode]
  · intro x y hx hy h
    cases x with
    | level L =>
      have hL : L ≤ 19 := hx
      cases y with
      | level M =>
        simp only [encode] at h
        congr 1
        omega
      | HEAD =>
        simp only [encode, m_begin_gradient_color_pair, m_highlight_color_pair,
          m_gradient_steps] at h
        omega
    | HEAD =>
      cases y with
      | level M =>
        have hM : M ≤ 19 := hy
        simp only [encode, m_begin_gradient_color_pair, m_highlight_color_pair,
          m_gradient_steps] at h
        omega
      | HEAD => rfl
  · intro x hx s row col hp
    cases x with
    | level L =>
      have hL : L ≤ 19 := hx
      simp only [is_drop, mvwinch, PAIR_NUMBER, hp, encode, m_begin_gradient_color_pair,
        m_highlight_color_pair, m_gradient_steps, decide_eq_true_eq]
      constructor
      · intro h; omega
      · intro h; cases h
    | HEAD =>
      simp [is_drop, mvwinch, PAIR_NUMBER, hp, encode]

/-! ## The roll of a head and the spawn check -/

/-- Claim C6: when the visit of a cell (row, col) finds a head, the roll draw succeeds and a
row below exists, then after the visit the cell has the brightest trail level G (color
pair 20, not the background) and its old glyph, the cell below is a head whose glyph belongs
to the character set, and no other cell has changed.  The visit returns when the character
set is non-empty and the glyph draw lies in [0,1). -/
theorem C6_head_roll (rain : Rain) (row col : Nat) (s : World)
    (hhead : (s.window.cell row col).pair = m_highlight_color_pair)
    (hroll : rain.m_generator s.drawn < rain.m_roll_rate)
    (hrow : row + 1 < s.window.rows) :
    (∀ s1, paint_cell rain s.window.rows row col s = Except.ok s1 →
      (s1.window.cell row col).pair = encode (Marker.level G) ∧
      (s1.window.cell row col).pair = 20 ∧
      (s1.window.cell row col).pair ≠ m_begin_gradient_color_pair ∧
      (s1.window.cell row col).glyph = (s.window.cell row col).glyph ∧
      (s1.window.cell (row + 1) col).pair = m_highlight_color_pair ∧
      (s1.window.cell (row + 1) col).glyph ∈ rain.m_character_set ∧
      (∀ r c, ¬ (r = row ∧ c = col) → ¬ (r = row + 1 ∧ c = col) →
        s1.window.cell r c = s.window.cell r c)) ∧
    (rain.m_character_set ≠ [] → 0 ≤ rain.m_generator (s.drawn + 1) →
      rain.m_generator (s.drawn + 1) < 1 →
      ∃ s1, paint_cell rain s.window.rows row col s = Except.ok s1) := by
  rw [paint_cell_roll rain s.window.rows row col s hhead hroll hrow]
  constructor
  · intro s1 h1
    obtain ⟨ch, hm, rfl⟩ := highlight_inv rain (row + 1) col _ s1 h1
    have hne : ¬ (row = row + 1 ∧ col = col) := by omega
    refine ⟨?_, ?_, ?_, ?_, ?_, ?_, ?_⟩
    · simp [mvwaddch_cell, fade_window_cell, checked_window, hhead, encode, G,
        m_highlight_color_pair, m_begin_gradient_color_pair, m_gradient_steps]
    · simp [mvwaddch_cell, fade_window_cell, checked_window, hhead,
        m_highlight_color_pair, m_begin_gradient_color_pair, m_gradient_steps]
    · simp [mvwaddch_cell, fade_window_cell, checked_window, hhead,
        m_highlight_color_pair, m_begin_gradient_color_pair, m_gradient_steps]
    · simp [mvwaddch_cell, fade_window_cell, checked_window]
    · simp [mvwaddch_cell]
    · simpa [mvwaddch_cell] using hm
    · intro r c h1 h2
      simp [mvwaddch_cell, fade_window_cell, checked_window, h1, h2]
  · intro hc h0 h1
    exact highlight_ok rain (row + 1) col _ hc h0 h1

/-- Claim C6 at a head on top of a 2 x 1 surface: the visit returns and the head has
moved down. -/
theorem C6_head_roll_witness :
    ∃ s1, paint_cell rain_rolling world_top_head.window.rows 0 0 world_top_head
        = Except.ok s1 ∧
      (s1.window.cell 0 0).pair = encode (Marker.level G) ∧
      (s1.window.cell 0 0).pair = 20 ∧
      (s1.window.cell 0 0).pair ≠ m_begin_gradient_color_pair ∧
      (s1.window.cell 0 0).glyph = (world_top_head.window.cell 0 0).glyph ∧
      (s1.window.cell (0 + 1) 0).pair = m_highlight_color_pair ∧
      (s1.window.cell (0 + 1) 0).glyph ∈ rain_rolling.m_character_set ∧
      (∀ r c, ¬ (r = 0 ∧ c = 0) → ¬ (r = 0 + 1 ∧ c = 0) →
        s1.window.cell r c = world_top_head.window.cell r c) := by
  obtain ⟨h1, h2⟩ := C6_head_roll rain_rolling 0 0 world_top_head rfl
    (by norm_num [rain_rolling]) (by decide)
  obtain ⟨s1, hs⟩ := h2 (by simp [rain_rolling]) (by norm_num [rain_rolling])
    (by norm_num [rain_rolling])
  exact ⟨s1, hs, h1 s1 hs⟩

/-- Claim C7: in the spawn check of a column, if cell (0, col) is a head when the check runs,
then whatever the density and the draw, the check returns and leaves the whole window as it
was; the check writes (and changes the window) only when the draw succeeds and cell (0, col)
is not a head; and in that case what it writes is a head at (0, col) with a glyph of the
character set, every other cell staying as it was. -/
theorem C7_spawn_check (rain : Rain) (col : Nat) (s : World) :
    ((s.window.cell 0 col).pair = m_highlight_color_pair →
      ∃ s1, paint_spawn rain col s = Except.ok s1 ∧ s1.window = s.window ∧
        ∀ t, t ∈ s1.trace → t ∈ s.trace ∨ t = Touch.read 0 col) ∧
    (¬ (rain.m_generator s.drawn < rain.m_density ∧
        (s.window.cell 0 col).pair ≠ m_highlight_color_pair) →
      ∃ s1, paint_spawn rain col s = Except.ok s1 ∧ s1.window = s.window ∧
        ∀ t, t ∈ s1.trace → t ∈ s.trace ∨ t = Touch.read 0 col) ∧
    (rain.m_generator s.drawn < rain.m_density →
      (s.window.cell 0 col).pair ≠ m_highlight_color_pair →
      ∀ s1, paint_spawn rain col s = Except.ok s1 →
        (s1.window.cell 0 col).pair = m_highlight_color_pair ∧
        (s1.window.cell 0 col).glyph ∈ rain.m_character_set ∧
        (∀ r c, ¬ (r = 0 ∧ c = col) → s1.window.cell r c = s.window.cell r c) ∧
        s1.trace = s.trace ++ [Touch.read 0 col, Touch.write 0 col]) := by
  have quiet : ¬ (rain.m_generator s.drawn < rain.m_density ∧
        (s.window.cell 0 col).pair ≠ m_highlight_color_pair) →
      ∃ s1, paint_spawn rain col s = Except.ok s1 ∧ s1.window = s.window ∧
        ∀ t, t ∈ s1.trace → t ∈ s.trace ∨ t = Touch.read 0 col := by
    intro h
    by_cases hadd : rain.m_generator s.drawn < rain.m_density
    · have hhead : (s.window.cell 0 col).pair = m_highlight_color_pair := by
        by_contra hne
        exact h ⟨hadd, hne⟩
      refine ⟨_, paint_spawn_occupied rain col s hadd hhead, rfl, ?_⟩
      intro t ht
      simpa [checked_trace] using ht
    · refine ⟨_, paint_spawn_skip rain col s hadd, rfl, ?_⟩
      intro t ht
      exact Or.inl ht
  refine ⟨fun hhead => quiet (fun h => h.2 hhead), quiet, ?_⟩
  intro hadd hhead s1 h1
  rw [paint_spawn_add rain col s hadd hhead] at h1
  obtain ⟨ch, hm, rfl⟩ := highlight_inv rain 0 col _ s1 h1
  refine ⟨by simp [mvwaddch_cell], by simpa [mvwaddch_cell] using hm, ?_, ?_⟩
  · intro r c h
    simp [mvwaddch_cell, checked_window, h]
  · simp [mvwaddch, checked_trace]

/-- Claim C7 at a column whose top cell is a head, with density 1. -/
theorem C7_spawn_check_witness :
    ∃ s1, paint_spawn rain_eager 0 world_top_head = Except.ok s1 ∧
      s1.window = world_top_head.window ∧
      ∀ t, t ∈ s1.trace → t ∈ world_top_head.trace ∨ t = Touch.read 0 0 :=
  (C7_spawn_check rain_eager 0 world_top_head).1 rfl

/-! ## Cells outside the reserved range -/

/-- Claim C9 fails at color pair 22: the cell decodes as UNKNOWN, and a fade, also the one
the visit of paint applies, leaves it with color pair 21, the head. -/
theorem C9_fade_of_pair_22_is_head :
    decode (world_foreign.window.cell 0 0).pair = UNKNOWN ∧
    ((fade 0 0 world_foreign).window.cell 0 0).pair = m_highlight_color_pair ∧
    decode ((fade 0 0 world_foreign).window.cell 0 0).pair = some Marker.HEAD ∧
    (is_drop 0 0 (fade 0 0 world_foreign)).1 = true ∧
    ∃ s1, paint_cell rain_fading 1 0 0 world_foreign = Except.ok s1 ∧
      (s1.window.cell 0 0).pair = m_highlight_color_pair ∧
      decode (s1.window.cell 0 0).pair = some Marker.HEAD := by
  have hne : (world_foreign.window.cell 0 0).pair ≠ m_highlight_color_pair := by decide
  have hfade : rain_fading.m_generator world_foreign.drawn < rain_fading.m_fade_rate := by
    norm_num [rain_fading]
  refine ⟨by decide, by decide, by decide, by decide, _,
    paint_cell_fade rain_fading 1 0 0 world_foreign hne hfade, by decide, by decide⟩

/-- Claim C9 as amended: a fade of a cell whose color pair lies outside the reserved range
[1, 21] and is not 22 leaves the cell decoding as UNKNOWN or as the background level 0, never
as the head or a trail level above 0: color pair 0 becomes the background pair 1, and a color
pair p above 22 becomes p - 1, still outside the range. -/
theorem C9_unknown_cells_fade (row col : Nat) (s : World)
    (hout : (s.window.cell row col).pair < m_begin_gradient_color_pair ∨
      m_highlight_color_pair < (s.window.cell row col).pair)
    (h22 : (s.window.cell row col).pair ≠ m_highlight_color_pair + 1) :
    (decode ((fade row col s).window.cell row col).pair = UNKNOWN ∨
      decode ((fade row col s).window.cell row col).pair = some (Marker.level 0)) ∧
    decode ((fade row col s).window.cell row col).pair ≠ some Marker.HEAD ∧
    (∀ L, 0 < L → decode ((fade row col s).window.cell row col).pair ≠ some (Marker.level L)) ∧
    ((s.window.cell row col).pair = 0 →
      ((fade row col s).window.cell row col).pair = m_begin_gradient_color_pair) ∧
    (m_highlight_color_pair + 1 < (s.window.cell row col).pair →
      ((fade row col s).window.cell row col).pair = (s.window.cell row col).pair - 1 ∧
      m_highlight_color_pair < ((fade row col s).window.cell row col).pair) ∧
    ((fade row col s).window.cell row col).glyph = (s.window.cell row col).glyph := by
  simp only [m_highlight_color_pair, m_begin_gradient_color_pair, m_gradient_steps] at hout h22
  have key : ((fade row col s).window.cell row col).pair = 1 ∨
      (21 < ((fade row col s).window.cell row col).pair ∧
        ((fade row col s).window.cell row col).pair = (s.window.cell row col).pair - 1 ∧
        22 < (s.window.cell row col).pair) := by
    simp only [fade_window_cell, and_self, if_true, m_begin_gradient_color_pair]
    split <;> omega
  have hglyph : ((fade row col s).window.cell row col).glyph = (s.window.cell row col).glyph := by
    simp [fade_window_cell]
  rcases key with h | ⟨h1, h2, h3⟩
  · rw [h]
    refine ⟨Or.inr (by decide), by decide, ?_, fun _ => rfl, ?_, hglyph⟩
    · intro L hL hd
      have : Marker.level 0 = Marker.level L := by
        have h0 : decode 1 = some (Marker.level 0) := by decide
        rw [h0] at hd
        exact Option.some.inj hd
      cases this
      omega
    · intro hp
      simp only [m_highlight_color_pair, m_begin_gradient_color_pair, m_gradient_steps] at hp
      simp only [fade_window_cell, and_self, if_true, m_begin_gradient_color_pair] at h
      split at h <;> omega
  · have hnone : decode ((fade row col s).window.cell row col).pair = none := by
      simp only [decode, m_highlight_color_pair, m_begin_gradient_color_pair, m_gradient_steps]
      rw [if_neg (by omega), if_neg (by omega)]
    refine ⟨Or.inl hnone, by rw [hnone]; simp, ?_, ?_, ?_, hglyph⟩
    · intro L _
      rw [hnone]
      simp
    · intro h0
      omega
    · intro _
      exact ⟨h2, by
        simp only [m_highlight_color_pair, m_begin_gradient_color_pair, m_gradient_steps]
        omega⟩

/-- Claim C9 as amended, at color pair 40. -/
theorem C9_unknown_cells_fade_witness :
    (decode ((fade 0 0 world_far).window.cell 0 0).pair = UNKNOWN ∨
      decode ((fade 0 0 world_far).window.cell 0 0).pair = some (Marker.level 0)) ∧
    decode ((fade 0 0 world_far).window.cell 0 0).pair ≠ some Marker.HEAD ∧
    (∀ L, 0 < L → decode ((fade 0 0 world_far).window.cell 0 0).pair ≠ some (Marker.level L)) ∧
    ((world_far.window.cell 0 0).pair = 0 →
      ((fade 0 0 world_far).window.cell 0 0).pair = m_begin_gradient_color_pair) ∧
    (m_highlight_color_pair + 1 < (world_far.window.cell 0 0).pair →
      ((fade 0 0 world_far).window.cell 0 0).pair = (world_far.window.cell 0 0).pair - 1 ∧
      m_highlight_color_pair < ((fade 0 0 world_far).window.cell 0 0).pair) ∧
    ((fade 0 0 world_far).window.cell 0 0).glyph = (world_far.window.cell 0 0).glyph :=
  C9_unknown_cells_fade 0 0 world_far (Or.inr (by decide)) (by decide)

/-! ## What a visit and a spawn check can do to the window -/

theorem fade_cell_eq (row col : Nat) (s : World) (r c : Nat) :
    (fade row col s).window.cell r c =
      if r = row ∧ c = col then
        { glyph := (s.window.cell row col).glyph, pair := faded (s.window.cell row col).pair }
      else s.window.cell r c := by
  rw [fade_window_cell]
  rfl

/-- Every completed visit of a cell keeps the dimensions and the palette, and does one of
four things to the window: nothing (the head stays, or the cell does not fade); the head
rolls into the row below; the head in the last row is demoted; a cell that is no head
fades. -/
theorem paint_cell_inv (rain : Rain) (rows row col : Nat) (s s1 : World)
    (h : paint_cell rain rows row col s = Except.ok s1) :
    s1.window.rows = s.window.rows ∧ s1.window.cols = s.window.cols ∧
    s1.palette = s.palette ∧
    ((s1.window.cell = s.window.cell ∧
        ((head_at s row col ∧ ¬ rain.m_generator s.drawn < rain.m_roll_rate) ∨
         (¬ head_at s row col ∧ ¬ rain.m_generator s.drawn < rain.m_fade_rate))) ∨
     (head_at s row col ∧ rain.m_generator s.drawn < rain.m_roll_rate ∧ row + 1 < rows ∧
        ∃ ch, ch ∈ rain.m_character_set ∧ ∀ r c, s1.window.cell r c =
          if r = row + 1 ∧ c = col then { glyph := ch, pair := m_highlight_color_pair }
          else if r = row ∧ c = col then
            { glyph := (s.window.cell row col).glyph, pair := faded (s.window.cell row col).pair }
          else s.window.cell r c) ∨
     (head_at s row col ∧ rain.m_generator s.drawn < rain.m_roll_rate ∧ ¬ row + 1 < rows ∧
        ∀ r c, s1.window.cell r c =
          if r = row ∧ c = col then
            { glyph := (s.window.cell row col).glyph, pair := faded (s.window.cell row col).pair }
          else s.window.cell r c) ∨
     (¬ head_at s row col ∧ rain.m_generator s.drawn < rain.m_fade_rate ∧
        ∀ r c, s1.window.cell r c =
          if r = row ∧ c = col then
            { glyph := (s.window.cell row col).glyph, pair := faded (s.window.cell row col).pair }
          else s.window.cell r c)) := by
  by_cases hhead : (s.window.cell row col).pair = m_highlight_color_pair
  · by_cases hroll : rain.m_generator s.drawn < rain.m_roll_rate
    · by_cases hrow : row + 1 < rows
      · rw [paint_cell_roll rain rows row col s hhead hroll hrow] at h
        obtain ⟨ch, hm, rfl⟩ := highlight_inv rain (row + 1) col _ s1 h
        refine ⟨rfl, rfl, rfl, Or.inr (Or.inl ⟨hhead, hroll, hrow, ch, hm, ?_⟩)⟩
        intro r c
        rw [mvwaddch_cell]
        show (if r = row + 1 ∧ c = col then _
          else (fade row col (checked row col s)).window.cell r c) = _
        rw [fade_cell_eq, checked_window]
      · rw [paint_cell_roll_last rain rows row col s hhead hroll hrow] at h
        simp only [Except.ok.injEq] at h
        subst h
        refine ⟨rfl, rfl, rfl, Or.inr (Or.inr (Or.inl ⟨hhead, hroll, hrow, ?_⟩))⟩
        intro r c
        rw [fade_cell_eq, checked_window]
    · rw [paint_cell_stay rain rows row col s hhead hroll] at h
      simp only [Except.ok.injEq] at h
      subst h
      exact ⟨rfl, rfl, rfl, Or.inl ⟨rfl, Or.inl ⟨hhead, hroll⟩⟩⟩
  · by_cases hfade : rain.m_generator s.drawn < rain.m_fade_rate
    · rw [paint_cell_fade rain rows row col s hhead hfade] at h
      simp only [Except.ok.injEq] at h
      subst h
      refine ⟨rfl, rfl, rfl, Or.inr (Or.inr (Or.inr ⟨hhead, hfade, ?_⟩))⟩
      intro r c
      rw [fade_cell_eq, checked_window]
    · rw [paint_cell_keep rain rows row col s hhead hfade] at h
      simp only [Except.ok.injEq] at h
      subst h
      exact ⟨rfl, rfl, rfl, Or.inl ⟨rfl, Or.inr ⟨hhead, hfade⟩⟩⟩

/-- Every completed spawn check keeps the dimensions and the palette, and either leaves the
window alone or, the draw having succeeded with no head at the top, writes a head at the
top of the column. -/
theorem paint_spawn_inv (rain : Rain) (col : Nat) (s s1 : World)
    (h : paint_spawn rain col s = Except.ok s1) :
    s1.window.rows = s.window.rows ∧ s1.window.cols = s.window.cols ∧
    s1.palette = s.palette ∧
    ((s1.window.cell = s.window.cell ∧
        ¬ (rain.m_generator s.drawn < rain.m_density ∧ ¬ head_at s 0 col)) ∨
     (rain.m_generator s.drawn < rain.m_density ∧ ¬ head_at s 0 col ∧
        ∃ ch, ch ∈ rain.m_character_set ∧ ∀ r c, s1.window.cell r c =
          if r = 0 ∧ c = col then { glyph := ch, pair := m_highlight_color_pair }
          else s.window.cell r c)) := by
  by_cases hadd : rain.m_generator s.drawn < rain.m_density
  · by_cases hhead : (s.window.cell 0 col).pair = m_highlight_color_pair
    · rw [paint_spawn_occupied rain col s hadd hhead] at h
      simp only [Except.ok.injEq] at h
      subst h
      exact ⟨rfl, rfl, rfl, Or.inl ⟨rfl, fun hh => hh.2 hhead⟩⟩
    · rw [paint_spawn_add rain col s hadd hhead] at h
      obtain ⟨ch, hm, rfl⟩ := highlight_inv rain 0 col _ s1 h
      exact ⟨rfl, rfl, rfl, Or.inr ⟨hadd, hhead, ch, hm, fun r c => rfl⟩⟩
  · rw [paint_spawn_skip rain col s hadd] at h
    simp only [Except.ok.injEq] at h
    subst h
    exact ⟨rfl, rfl, rfl, Or.inl ⟨rfl, fun hh => hadd hh.1⟩⟩

/-! ## Heads per column -/

theorem faded_head : faded m_highlight_color_pair ≠ m_highlight_color_pair := by decide

theorem faded_ne_head (p : Nat) (h2 : p ≠ m_highlight_color_pair + 1) :
    faded p ≠ m_highlight_color_pair := by
  simp only [faded, m_highlight_color_pair, m_begin_gradient_color_pair, m_gradient_steps] at *
  split <;> omega

/-- A completed visit of the cell (row, col) keeps the column at one head at most, provided
the cells not yet visited do not carry the color pair above the head; it leaves the other
columns alone. -/
theorem paint_cell_heads (rain : Rain) (rows row col : Nat) (s s1 : World)
    (h : paint_cell rain rows row col s = Except.ok s1)
    (huniq : heads_unique_from 0 rows s col)
    (hrow : row < rows)
    (h22 : ∀ j, row ≤ j → j < rows → (s.window.cell j col).pair ≠ m_highlight_color_pair + 1) :
    heads_unique_from 0 rows s1 col ∧
    (∀ j, row + 1 ≤ j → j < rows →
      (s1.window.cell j col).pair ≠ m_highlight_color_pair + 1) ∧
    (∀ r c, c ≠ col → s1.window.cell r c = s.window.cell r c) := by
  obtain ⟨_, _, _, hcases⟩ := paint_cell_inv rain rows row col s s1 h
  rcases hcases with ⟨hsame, _⟩ | ⟨hhead, _, hnext, ch, _, hcell⟩ | ⟨hhead, _, _, hcell⟩ |
    ⟨hhead, _, hcell⟩
  · refine ⟨?_, ?_, ?_⟩
    · intro j k a b c d hj hk
      unfold head_at at hj hk
      rw [hsame] at hj hk
      exact huniq j k a b c d hj hk
    · intro j hj1 hj2
      rw [hsame]
      exact h22 j (by omega) hj2
    · intro r c _
      rw [hsame]
  · have only : ∀ j, j < rows → head_at s1 j col → j = row + 1 := by
      intro j hj hh
      by_contra hne
      unfold head_at at hh
      rw [hcell j col, if_neg (fun hx => hne hx.1)] at hh
      by_cases hjr : j = row
      · rw [if_pos ⟨hjr, rfl⟩] at hh
        unfold head_at at hhead
        rw [hhead] at hh
        exact faded_head hh
      · rw [if_neg (fun hx => hjr hx.1)] at hh
        exact hjr (huniq j row (Nat.zero_le _) hj (Nat.zero_le _) hrow hh hhead)
    refine ⟨?_, ?_, ?_⟩
    · intro j k _ b _ d hj hk
      rw [only j b hj, only k d hk]
    · intro j hj1 hj2
      rw [hcell j col]
      by_cases hjn : j = row + 1
      · rw [if_pos ⟨hjn, rfl⟩]
        exact Nat.ne_of_lt (Nat.lt_succ_self _)
      · rw [if_neg (fun hx => hjn hx.1), if_neg (fun hx => by omega)]
        exact h22 j (by omega) hj2
    · intro r c hc
      rw [hcell r c, if_neg (fun hx => hc hx.2), if_neg (fun hx => hc hx.2)]
  · have sub : ∀ j, head_at s1 j col → head_at s j col := by
      intro j hh
      unfold head_at at hh ⊢
      rw [hcell j col] at hh
      by_cases hjr : j = row
      · rw [if_pos ⟨hjr, rfl⟩] at hh
        unfold head_at at hhead
        rw [hhead] at hh
        exact absurd hh faded_head
      · rw [if_neg (fun hx => hjr hx.1)] at hh
        exact hh
    refine ⟨?_, ?_, ?_⟩
    · intro j k a b c d hj hk
      exact huniq j k a b c d (sub j hj) (sub k hk)
    · intro j hj1 hj2
      rw [hcell j col, if_neg (fun hx => by omega)]
      exact h22 j (by omega) hj2
    · intro r c hc
      rw [hcell r c, if_neg (fun hx => hc hx.2)]
  · have sub : ∀ j, head_at s1 j col → head_at s j col := by
      intro j hh
      unfold head_at at hh ⊢
      rw [hcell j col] at hh
      by_cases hjr : j = row
      · rw [if_pos ⟨hjr, rfl⟩] at hh
        exact absurd hh (faded_ne_head _ (h22 row (Nat.le_refl _) hrow))
      · rw [if_neg (fun hx => hjr hx.1)] at hh
        exact hh
    refine ⟨?_, ?_, ?_⟩
    · intro j k a b c d hj hk
      exact huniq j k a b c d (sub j hj) (sub k hk)
    · intro j hj1 hj2
      rw [hcell j col, if_neg (fun hx => by omega)]
      exact h22 j (by omega) hj2
    · intro r c hc
      rw [hcell r c, if_neg (fun hx => hc hx.2)]

/-- The pass over the rows of a column that has at most one head and no cell with the
color pair above the head returns with at most one head in the column, the dimensions and
the other columns as they were. -/
theorem paint_rows_heads (rain : Rain) (rows col : Nat) (s : World)
    (hc : rain.m_character_set ≠ [])
    (hu : ∀ i, 0 ≤ rain.m_generator i ∧ rain.m_generator i < 1)
    (huniq : heads_unique_from 0 rows s col)
    (h22 : ∀ j, j < rows → (s.window.cell j col).pair ≠ m_highlight_color_pair + 1) :
    ∃ s1, paint_rows rain rows col rows 0 s = Except.ok s1 ∧
      heads_unique_from 0 rows s1 col ∧
      s1.window.rows = s.window.rows ∧ s1.window.cols = s.window.cols ∧
      (∀ r c, c ≠ col → s1.window.cell r c = s.window.cell r c) := by
  obtain ⟨s1, h1, a, _, b, c, d⟩ := paint_rows_induct rain rows col
    (fun row t => heads_unique_from 0 rows t col ∧
      (∀ j, row ≤ j → j < rows → (t.window.cell j col).pair ≠ m_highlight_color_pair + 1) ∧
      t.window.rows = s.window.rows ∧ t.window.cols = s.window.cols ∧
      (∀ r c, c ≠ col → t.window.cell r c = s.window.cell r c))
    (fun row t hrow ⟨p1, p2, p3, p4, p5⟩ => by
      obtain ⟨t1, ht⟩ := paint_cell_ok rain rows row col t hc hu
      obtain ⟨q1, q2, q3⟩ := paint_cell_heads rain rows row col t t1 ht p1 hrow p2
      obtain ⟨d1, d2, _, _⟩ := paint_cell_inv rain rows row col t t1 ht
      exact ⟨t1, ht, q1, q2, d1.trans p3, d2.trans p4,
        fun r c hne => (q3 r c hne).trans (p5 r c hne)⟩)
    rows 0 s (by omega)
    ⟨huniq, fun j _ hj => h22 j hj, rfl, rfl, fun _ _ _ => rfl⟩
  exact ⟨s1, h1, a, b, c, d⟩

theorem heads_unique_congr (a rows col : Nat) (s s1 : World)
    (hcol : ∀ r, s1.window.cell r col = s.window.cell r col)
    (h : heads_unique_from a rows s col) : heads_unique_from a rows s1 col := by
  intro j k h1 h2 h3 h4 hj hk
  unfold head_at at hj hk
  rw [hcol] at hj hk
  exact h j k h1 h2 h3 h4 hj hk

theorem heads_unique_mono (a b rows col : Nat) (s : World) (hab : a ≤ b)
    (h : heads_unique_from a rows s col) : heads_unique_from b rows s col :=
  fun j k h1 h2 h3 h4 hj hk => h j k (by omega) h2 (by omega) h4 hj hk

/-- The visit of a column that has at most one head and no cell with the color pair above
the head returns; below row 0 the column still has at most one head, and so it has in all
when the density is zero; the dimensions and the other columns are as they were. -/
theorem paint_col_heads (rain : Rain) (rows col : Nat) (s : World)
    (hc : rain.m_character_set ≠ [])
    (hu : ∀ i, 0 ≤ rain.m_generator i ∧ rain.m_generator i < 1)
    (huniq : heads_unique_from 0 rows s col)
    (h22 : ∀ j, j < rows → (s.window.cell j col).pair ≠ m_highlight_color_pair + 1) :
    ∃ s1, paint_col rain rows col s = Except.ok s1 ∧
      heads_unique_from 1 rows s1 col ∧
      (rain.m_density = 0 → heads_unique_from 0 rows s1 col) ∧
      s1.window.rows = s.window.rows ∧ s1.window.cols = s.window.cols ∧
      (∀ r c, c ≠ col → s1.window.cell r c = s.window.cell r c) := by
  obtain ⟨s1, h1, u1, r1, c1, f1⟩ := paint_rows_heads rain rows col s hc hu huniq h22
  obtain ⟨s2, h2⟩ := paint_spawn_ok rain col s1 hc hu
  obtain ⟨r2, c2, _, hcases⟩ := paint_spawn_inv rain col s1 s2 h2
  refine ⟨s2, by simp only [paint_col, h1, h2], ?_, ?_, r2.trans r1, c2.trans c1, ?_⟩
  · rcases hcases with ⟨hsame, _⟩ | ⟨_, _, ch, _, hcell⟩
    · exact heads_unique_mono 0 1 rows col s2 (by omega)
        (heads_unique_congr 0 rows col s1 s2 (fun r => by rw [hsame]) u1)
    · intro j k aj bj ak bk hj hk
      unfold head_at at hj hk
      rw [hcell j col, if_neg (fun hx => by omega)] at hj
      rw [hcell k col, if_neg (fun hx => by omega)] at hk
      exact u1 j k (by omega) bj (by omega) bk hj hk
  · intro hd
    rcases hcases with ⟨hsame, _⟩ | ⟨hadd, _⟩
    · exact heads_unique_congr 0 rows col s1 s2 (fun r => by rw [hsame]) u1
    · rw [hd] at hadd
      exact absurd hadd (not_lt.mpr (hu _).1)
  · intro r c hne
    rcases hcases with ⟨hsame, _⟩ | ⟨_, _, ch, _, hcell⟩
    · rw [hsame]
      exact f1 r c hne
    · rw [hcell r c, if_neg (fun hx => hne hx.2)]
      exact f1 r c hne

theorem heads_unique_of_only (a0 a rows : Nat) (s : World) (col : Nat)
    (h : ∀ j, j < rows → head_at s j col → j = a0) : heads_unique_from a rows s col :=
  fun j k _ hj _ hk h1 h2 => (h j hj h1).trans (h k hk h2).symm

/-- Claim C10 fails: on the 2 x 1 surface with its only head in the last row and the
background on top (every color pair in the reserved range), with density 1 and roll rate 0
the head stays and the spawn check, which looks at row 0 only, writes a second head above
it.  It also fails without any spawn on a surface with a head and a cell of color pair 22:
the fade of that cell makes the second head. -/
theorem C10_second_head_in_column :
    (heads_unique_from 0 world_bottom_head.window.rows world_bottom_head 0 ∧
      (∀ r, r < 2 → 1 ≤ (world_bottom_head.window.cell r 0).pair ∧
        (world_bottom_head.window.cell r 0).pair ≤ 21) ∧
      ∃ s1, paint rain_spawning world_bottom_head = Except.ok s1 ∧
        head_at s1 0 0 ∧ head_at s1 1 0 ∧
        ¬ heads_unique_from 0 world_bottom_head.window.rows s1 0) ∧
    (heads_unique_from 0 world_head_over_22.window.rows world_head_over_22 0 ∧
      ∃ s1, paint rain_fading world_head_over_22 = Except.ok s1 ∧
        head_at s1 0 0 ∧ head_at s1 1 0 ∧
        ¬ heads_unique_from 0 world_head_over_22.window.rows s1 0) := by
  have two : ∀ s1 : World, head_at s1 0 0 → head_at s1 1 0 → ¬ heads_unique_from 0 2 s1 0 := by
    intro s1 h0 h1 hu
    exact absurd (hu 0 1 (by omega) (by omega) (by omega) (by omega) h0 h1) (by omega)
  constructor
  · refine ⟨?_, ?_, ?_⟩
    · refine heads_unique_of_only 1 0 _ _ _ ?_
      intro j hj hh
      have hj2 : j < 2 := hj
      interval_cases j
      · exact absurd hh (by decide)
      · rfl
    · intro r hr
      interval_cases r <;> decide
    · have e0 : paint_cell rain_spawning 2 0 0 world_bottom_head
          = Except.ok (checked 0 0 world_bottom_head) :=
        paint_cell_keep _ _ _ _ _ (by decide) (by norm_num [rain_spawning])
      have e1 : paint_cell rain_spawning 2 1 0 (checked 0 0 world_bottom_head)
          = Except.ok (checked 1 0 (checked 0 0 world_bottom_head)) :=
        paint_cell_stay _ _ _ _ _ (by decide) (by norm_num [rain_spawning])
      have e2 : paint_spawn rain_spawning 0 (checked 1 0 (checked 0 0 world_bottom_head))
          = highlight rain_spawning 0 0
              (checked 0 0 (checked 1 0 (checked 0 0 world_bottom_head))) :=
        paint_spawn_add _ _ _ (by norm_num [rain_spawning]) (by decide)
      obtain ⟨ch, _, e3⟩ := highlight_spec rain_spawning 0 0
        (checked 0 0 (checked 1 0 (checked 0 0 world_bottom_head)))
        (by simp [rain_spawning]) (by norm_num [rain_spawning]) (by norm_num [rain_spawning])
      have hp : paint rain_spawning world_bottom_head = Except.ok
          (mvwaddch 0 0 { glyph := ch, pair := m_highlight_color_pair }
            { checked 0 0 (checked 1 0 (checked 0 0 world_bottom_head)) with
              drawn := (checked 0 0 (checked 1 0 (checked 0 0 world_bottom_head))).drawn + 1 }) := by
        show paint_cols rain_spawning 2 1 0 world_bottom_head = _
        simp only [paint_cols, paint_col, paint_rows, e0, e1, e2, e3]
      have h0 : head_at (mvwaddch 0 0 { glyph := ch, pair := m_highlight_color_pair }
            { checked 0 0 (checked 1 0 (checked 0 0 world_bottom_head)) with
              drawn := (checked 0 0 (checked 1 0 (checked 0 0 world_bottom_head))).drawn + 1 })
            0 0 := by
        simp [head_at, mvwaddch_cell]
      have h1 : head_at (mvwaddch 0 0 { glyph := ch, pair := m_highlight_color_pair }
            { checked 0 0 (checked 1 0 (checked 0 0 world_bottom_head)) with
              drawn := (checked 0 0 (checked 1 0 (checked 0 0 world_bottom_head))).drawn + 1 })
            1 0 := by
        simp [head_at, mvwaddch_cell, checked, world_bottom_head, window_bottom_head,
          m_highlight_color_pair, m_begin_gradient_color_pair, m_gradient_steps]
      exact ⟨_, hp, h0, h1, two _ h0 h1⟩
  · refine ⟨?_, ?_⟩
    · refine heads_unique_of_only 0 0 _ _ _ ?_
      intro j hj hh
      have hj2 : j < 2 := hj
      interval_cases j
      · rfl
      · exact absurd hh (by decide)
    · have e0 : paint_cell rain_fading 2 0 0 world_head_over_22
          = Except.ok (checked 0 0 world_head_over_22) :=
        paint_cell_stay _ _ _ _ _ (by decide) (by norm_num [rain_fading])
      have e1 : paint_cell rain_fading 2 1 0 (checked 0 0 world_head_over_22)
          = Except.ok (fade 1 0 (checked 1 0 (checked 0 0 world_head_over_22))) :=
        paint_cell_fade _ _ _ _ _ (by decide) (by norm_num [rain_fading])
      have e2 : paint_spawn rain_fading 0 (fade 1 0 (checked 1 0 (checked 0 0 world_head_over_22)))
          = Except.ok { fade 1 0 (checked 1 0 (checked 0 0 world_head_over_22)) with
              drawn := (fade 1 0 (checked 1 0 (checked 0 0 world_head_over_22))).drawn + 1 } :=
        paint_spawn_skip _ _ _ (by norm_num [rain_fading])
      have hp : paint rain_fading world_head_over_22 = Except.ok
          { fade 1 0 (checked 1 0 (checked 0 0 world_head_over_22)) with
              drawn := (fade 1 0 (checked 1 0 (checked 0 0 world_head_over_22))).drawn + 1 } := by
        show paint_cols rain_fading 2 1 0 world_head_over_22 = _
        simp only [paint_cols, paint_col, paint_rows, e0, e1, e2]
      have h0 : head_at { fade 1 0 (checked 1 0 (checked 0 0 world_head_over_22)) with
              drawn := (fade 1 0 (checked 1 0 (checked 0 0 world_head_over_22))).drawn + 1 }
            0 0 := by decide
      have h1 : head_at { fade 1 0 (checked 1 0 (checked 0 0 world_head_over_22)) with
              drawn := (fade 1 0 (checked 1 0 (checked 0 0 world_head_over_22))).drawn + 1 }
            1 0 := by decide
      exact ⟨_, hp, h0, h1, two _ h0 h1⟩

/-- Claim C10 as amended: on a surface in which each column contains at most one head and no
cell carries color pair 22 (the pair a fade turns into the head), for every density, roll
rate and fade rate, every non-empty character set and all draws in [0,1), a call of paint
returns, and afterwards each column contains at most one head in the rows 1 to rows - 1,
so at most two heads in all (the second one at row 0, written by the spawn check, which
looks at row 0 only); with density 0 each column still contains at most one head. -/
theorem C10_heads_per_column (rain : Rain) (s : World)
    (hc : rain.m_character_set ≠ [])
    (hu : ∀ i, 0 ≤ rain.m_generator i ∧ rain.m_generator i < 1)
    (huniq : ∀ c, c < s.window.cols → heads_unique_from 0 s.window.rows s c)
    (h22 : ∀ r c, r < s.window.rows → c < s.window.cols →
      (s.window.cell r c).pair ≠ m_highlight_color_pair + 1) :
    ∃ s1, paint rain s = Except.ok s1 ∧
      s1.window.rows = s.window.rows ∧ s1.window.cols = s.window.cols ∧
      (∀ c, c < s.window.cols → heads_unique_from 1 s.window.rows s1 c) ∧
      (∀ c, c < s.window.cols → ∀ i j k, i < s.window.rows → j < s.window.rows →
        k < s.window.rows → head_at s1 i c → head_at s1 j c → head_at s1 k c →
        i = j ∨ i = k ∨ j = k) ∧
      (rain.m_density = 0 →
        ∀ c, c < s.window.cols → heads_unique_from 0 s.window.rows s1 c) := by
  obtain ⟨s1, h1, r1, c1, post, _⟩ := paint_cols_induct rain s.window.rows s.window.cols
    (fun col t => t.window.rows = s.window.rows ∧ t.window.cols = s.window.cols ∧
      (∀ c, c < col → c < s.window.cols →
        heads_unique_from 1 s.window.rows t c ∧
        (rain.m_density = 0 → heads_unique_from 0 s.window.rows t c)) ∧
      (∀ c, col ≤ c → c < s.window.cols →
        heads_unique_from 0 s.window.rows t c ∧
        ∀ r, r < s.window.rows → (t.window.cell r c).pair ≠ m_highlight_color_pair + 1))
    (fun col t hcol ⟨p1, p2, p3, p4⟩ => by
      obtain ⟨t1, ht, q1, q2, q3, q4, q5⟩ := paint_col_heads rain s.window.rows col t hc hu
        (p4 col (Nat.le_refl _) hcol).1 (p4 col (Nat.le_refl _) hcol).2
      refine ⟨t1, ht, q3.trans p1, q4.trans p2, ?_, ?_⟩
      · intro c hc1 hc2
        by_cases hcc : c = col
        · subst hcc
          exact ⟨q1, q2⟩
        · have hlt : c < col := by omega
          obtain ⟨a, b⟩ := p3 c hlt hc2
          exact ⟨heads_unique_congr 1 _ c t t1 (fun r => q5 r c hcc) a,
            fun hd => heads_unique_congr 0 _ c t t1 (fun r => q5 r c hcc) (b hd)⟩
      · intro c hc1 hc2
        have hcc : c ≠ col := by omega
        obtain ⟨a, b⟩ := p4 c (by omega) hc2
        exact ⟨heads_unique_congr 0 _ c t t1 (fun r => q5 r c hcc) a,
          fun r hr => by rw [q5 r c hcc]; exact b r hr⟩)
    s.window.cols 0 s (by omega)
    ⟨rfl, rfl, fun c hc1 _ => absurd hc1 (Nat.not_lt_zero c),
      fun c _ hc2 => ⟨huniq c hc2, fun r hr => h22 r c hr hc2⟩⟩
  refine ⟨s1, h1, r1, c1, ?_, ?_, ?_⟩
  · intro c hcol
    exact (post c (by omega) hcol).1
  · intro c hcol i j k hi hj hk h_i h_j h_k
    have u := (post c (by omega) hcol).1
    by_cases hi0 : 1 ≤ i
    · by_cases hj0 : 1 ≤ j
      · exact Or.inl (u i j hi0 hi hj0 hj h_i h_j)
      · by_cases hk0 : 1 ≤ k
        · exact Or.inr (Or.inl (u i k hi0 hi hk0 hk h_i h_k))
        · exact Or.inr (Or.inr (by omega))
    · by_cases hj0 : 1 ≤ j
      · by_cases hk0 : 1 ≤ k
        · exact Or.inr (Or.inr (u j k hj0 hj hk0 hk h_j h_k))
        · exact Or.inr (Or.inl (by omega))
      · exact Or.inl (by omega)
  · intro hd c hcol
    exact (post c (by omega) hcol).2 hd

/-- Claim C10 as amended, at the surface and engine where the claim itself fails. -/
theorem C10_heads_per_column_witness :
    ∃ s1, paint rain_spawning world_bottom_head = Except.ok s1 ∧
      s1.window.rows = world_bottom_head.window.rows ∧
      s1.window.cols = world_bottom_head.window.cols ∧
      (∀ c, c < world_bottom_head.window.cols →
        heads_unique_from 1 world_bottom_head.window.rows s1 c) ∧
      (∀ c, c < world_bottom_head.window.cols → ∀ i j k,
        i < world_bottom_head.window.rows → j < world_bottom_head.window.rows →
        k < world_bottom_head.window.rows → head_at s1 i c → head_at s1 j c →
        head_at s1 k c → i = j ∨ i = k ∨ j = k) ∧
      (rain_spawning.m_density = 0 →
        ∀ c, c < world_bottom_head.window.cols →
          heads_unique_from 0 world_bottom_head.window.rows s1 c) :=
  C10_heads_per_column rain_spawning world_bottom_head (by simp [rain_spawning])
    (fun _ => by norm_num [rain_spawning])
    (fun c _ => heads_unique_of_only 1 0 _ _ c (fun j hj hh => by
      have hj2 : j < 2 := hj
      interval_cases j
      · exact absurd hh (by
          simp [head_at, world_bottom_head, window_bottom_head, m_highlight_color_pair,
            m_begin_gradient_color_pair, m_gradient_steps])
      · rfl))
    (fun r c hr _ => by
      have hr2 : r < 2 := hr
      interval_cases r <;>
        simp [world_bottom_head, window_bottom_head, m_highlight_color_pair,
          m_begin_gradient_color_pair, m_gradient_steps])

/-! ## Completed runs -/

/-- An invariant indexed by the row holds after every completed pass of the inner loop of
paint, when every completed visit carries it on. -/
theorem paint_rows_preserve (rain : Rain) (rows col : Nat) (P : Nat → World → Prop)
    (step : ∀ row t t1, row < rows → P row t →
      paint_cell rain rows row col t = Except.ok t1 → P (row + 1) t1) (n : Nat) :
    ∀ (row : Nat) (s s1 : World), row + n ≤ rows → P row s →
      paint_rows rain rows col n row s = Except.ok s1 → P (row + n) s1 := by
  induction n with
  | zero =>
    intro row s s1 _ hP h
    simp only [paint_rows, Except.ok.injEq] at h
    subst h
    exact hP
  | succ n ih =>
    intro row s s1 hle hP h
    simp only [paint_rows] at h
    split at h
    · rename_i t1 ht
      have e : row + (n + 1) = row + 1 + n := by omega
      rw [e]
      exact ih (row + 1) t1 s1 (by omega) (step row s t1 (by omega) hP ht) h
    · simp at h

/-- A completed visit of a column is a completed pass over its rows followed by a
completed spawn check. -/
theorem paint_col_inv (rain : Rain) (rows col : Nat) (s s2 : World)
    (h : paint_col rain rows col s = Except.ok s2) :
    ∃ s1, paint_rows rain rows col rows 0 s = Except.ok s1 ∧
      paint_spawn rain col s1 = Except.ok s2 := by
  simp only [paint_col] at h
  split at h
  · rename_i s1 h1
    exact ⟨s1, h1, h⟩
  · simp at h

/-- An invariant indexed by the column holds after every completed pass of the outer loop
of paint, when every completed visit of a column carries it on. -/
theorem paint_cols_preserve (rain : Rain) (rows cols : Nat) (P : Nat → World → Prop)
    (step : ∀ col t t1, col < cols → P col t →
      paint_col rain rows col t = Except.ok t1 → P (col + 1) t1) (n : Nat) :
    ∀ (col : Nat) (s s1 : World), col + n ≤ cols → P col s →
      paint_cols rain rows n col s = Except.ok s1 → P (col + n) s1 := by
  induction n with
  | zero =>
    intro col s s1 _ hP h
    simp only [paint_cols, Except.ok.injEq] at h
    subst h
    exact hP
  | succ n ih =>
    intro col s s1 hle hP h
    simp only [paint_cols] at h
    split at h
    · rename_i t1 ht
      have e : col + (n + 1) = col + 1 + n := by omega
      rw [e]
      exact ih (col + 1) t1 s1 (by omega) (step col s t1 (by omega) hP ht) h
    · simp at h

/-- Claim C11 fails at the empty character set: on the 1 x 1 surface at the background
level, with density 1, the spawn check calls highlight and the lookup at(0) in
get_random_character throws, so paint raises out_of_range. -/
theorem C11_empty_character_set_throws :
    1 ≤ world_one.window.rows ∧
    rain_mute.m_character_set = [] ∧
    (∀ i, 0 ≤ rain_mute.m_generator i ∧ rain_mute.m_generator i < 1) ∧
    get_random_character rain_mute world_one = Except.error Exn.out_of_range ∧
    paint rain_mute world_one = Except.error Exn.out_of_range := by
  refine ⟨by decide, rfl, fun _ => by norm_num [rain_mute], ?_, ?_⟩
  · simp [get_random_character, m_distribution, rain_mute]
  · have e0 : paint_cell rain_mute 1 0 0 world_one = Except.ok (checked 0 0 world_one) :=
      paint_cell_keep _ _ _ _ _ (by decide) (by norm_num [rain_mute])
    have e1 : paint_spawn rain_mute 0 (checked 0 0 world_one)
        = highlight rain_mute 0 0 (checked 0 0 (checked 0 0 world_one)) :=
      paint_spawn_add _ _ _ (by norm_num [rain_mute]) (by decide)
    have e2 : highlight rain_mute 0 0 (checked 0 0 (checked 0 0 world_one))
        = Except.error Exn.out_of_range := by
      simp [highlight, get_random_character, m_distribution, rain_mute]
    show paint_cols rain_mute 1 1 0 world_one = _
    simp only [paint_cols, paint_col, paint_rows, e0, e1, e2]

/-- Claim C11 as amended: for every surface, every density, roll rate and fade rate, every
non-empty character set and all draws in [0,1), a call of paint completes without raising
an error; in particular the index computed by get_random_character is below the size of the
character set at every draw, so the lookup at(index) does not throw. -/
theorem C11_paint_never_fails (rain : Rain) (s : World)
    (hc : rain.m_character_set ≠ [])
    (hu : ∀ i, 0 ≤ rain.m_generator i ∧ rain.m_generator i < 1) :
    (∃ s1, paint rain s = Except.ok s1) ∧
    (∀ t : World, ∃ ch t1, get_random_character rain t = Except.ok (ch, t1)) ∧
    (∀ row col (t : World), ∃ t1, highlight rain row col t = Except.ok t1) ∧
    (∀ rows row col (t : World), ∃ t1, paint_cell rain rows row col t = Except.ok t1) := by
  refine ⟨paint_ok rain s hc hu, ?_, ?_, ?_⟩
  · intro t
    obtain ⟨ch, _, h⟩ := get_random_character_ok rain t hc (hu _).1 (hu _).2
    exact ⟨ch, _, h⟩
  · intro row col t
    exact highlight_ok rain row col t hc (hu _).1 (hu _).2
  · intro rows row col t
    exact paint_cell_ok rain rows row col t hc hu

/-- Claim C11 as amended, on a 2 x 2 surface with the character set A, B, C. -/
theorem C11_paint_never_fails_witness :
    (∃ s1, paint rain_eager world_mixed = Except.ok s1) ∧
    (∀ t : World, ∃ ch t1, get_random_character rain_eager t = Except.ok (ch, t1)) ∧
    (∀ row col (t : World), ∃ t1, highlight rain_eager row col t = Except.ok t1) ∧
    (∀ rows row col (t : World), ∃ t1, paint_cell rain_eager rows row col t = Except.ok t1) :=
  C11_paint_never_fails rain_eager world_mixed (by simp [rain_eager])
    (fun _ => by norm_num [rain_eager])

/-! ## Heads that do not roll -/

/-- A write to a cell that is no head leaves every head where it was. -/
theorem heads_kept_of_write (s t t1 : World) (a b : Nat)
    (hP : ∀ r c, head_at s r c → t.window.cell r c = s.window.cell r c)
    (hfree : ¬ head_at t a b)
    (hcell : ∀ r c, ¬ (r = a ∧ c = b) → t1.window.cell r c = t.window.cell r c) :
    ∀ r c, head_at s r c → t1.window.cell r c = s.window.cell r c := by
  intro r c hh
  by_cases hab : r = a ∧ c = b
  · obtain ⟨rfl, rfl⟩ := hab
    exact absurd (by unfold head_at; rw [hP r c hh]; exact hh) hfree
  · rw [hcell r c hab]
    exact hP r c hh

/-- Claim C12: with roll rate 0 and draws in [0,1), for every surface, density and fade
rate, every cell that is a head before a call of paint is the same cell value (a head, with
the same glyph) after every completed call; and the call completes when the character set is
non-empty. -/
theorem C12_heads_persist (rain : Rain) (s : World)
    (hr : rain.m_roll_rate = 0)
    (hu : ∀ i, 0 ≤ rain.m_generator i ∧ rain.m_generator i < 1) :
    (∀ s1, paint rain s = Except.ok s1 → ∀ r c, head_at s r c →
      head_at s1 r c ∧ (s1.window.cell r c).pair = m_highlight_color_pair ∧
      (s1.window.cell r c).glyph = (s.window.cell r c).glyph) ∧
    (rain.m_character_set ≠ [] → ∃ s1, paint rain s = Except.ok s1) := by
  have noroll : ∀ i, ¬ rain.m_generator i < rain.m_roll_rate := fun i => by
    rw [hr]; exact not_lt.mpr (hu i).1
  have cell_step : ∀ rows row col (t t1 : World),
      (∀ r c, head_at s r c → t.window.cell r c = s.window.cell r c) →
      paint_cell rain rows row col t = Except.ok t1 →
      ∀ r c, head_at s r c → t1.window.cell r c = s.window.cell r c := by
    intro rows row col t t1 hP h
    obtain ⟨_, _, _, hcases⟩ := paint_cell_inv rain rows row col t t1 h
    rcases hcases with ⟨hsame, _⟩ | ⟨_, hroll, _⟩ | ⟨_, hroll, _⟩ | ⟨hfree, _, hcell⟩
    · intro r c hh
      rw [hsame]
      exact hP r c hh
    · exact absurd hroll (noroll _)
    · exact absurd hroll (noroll _)
    · exact heads_kept_of_write s t t1 row col hP hfree
        (fun r c hne => by rw [hcell r c, if_neg hne])
  have spawn_step : ∀ col (t t1 : World),
      (∀ r c, head_at s r c → t.window.cell r c = s.window.cell r c) →
      paint_spawn rain col t = Except.ok t1 →
      ∀ r c, head_at s r c → t1.window.cell r c = s.window.cell r c := by
    intro col t t1 hP h
    obtain ⟨_, _, _, hcases⟩ := paint_spawn_inv rain col t t1 h
    rcases hcases with ⟨hsame, _⟩ | ⟨_, hfree, ch, _, hcell⟩
    · intro r c hh
      rw [hsame]
      exact hP r c hh
    · exact heads_kept_of_write s t t1 0 col hP hfree
        (fun r c hne => by rw [hcell r c, if_neg hne])
  have col_step : ∀ rows col (t t1 : World),
      (∀ r c, head_at s r c → t.window.cell r c = s.window.cell r c) →
      paint_col rain rows col t = Except.ok t1 →
      ∀ r c, head_at s r c → t1.window.cell r c = s.window.cell r c := by
    intro rows col t t1 hP h
    obtain ⟨t0, h0, h1⟩ := paint_col_inv rain rows col t t1 h
    have hP0 := paint_rows_preserve rain rows col
      (fun _ w => ∀ r c, head_at s r c → w.window.cell r c = s.window.cell r c)
      (fun row w w1 _ hw hstep => cell_step rows row col w w1 hw hstep)
      rows 0 t t0 (by omega) hP h0
    exact spawn_step col t0 t1 hP0 h1
  constructor
  · intro s1 h1 r c hh
    have key := paint_cols_preserve rain s.window.rows s.window.cols
      (fun _ w => ∀ r c, head_at s r c → w.window.cell r c = s.window.cell r c)
      (fun col w w1 _ hw hstep => col_step s.window.rows col w w1 hw hstep)
      s.window.cols 0 s s1 (by omega) (fun _ _ _ => rfl) h1
    have e := key r c hh
    unfold head_at at hh ⊢
    rw [e]
    exact ⟨hh, hh, rfl⟩
  · intro hc
    exact paint_ok rain s hc hu

/-- Claim C12 on a 2 x 2 surface with a head at (0,0): the call completes and the head is
where it was. -/
theorem C12_heads_persist_witness :
    ∃ s1, paint rain_spawning world_mixed = Except.ok s1 ∧
      head_at s1 0 0 ∧ (s1.window.cell 0 0).pair = m_highlight_color_pair ∧
      (s1.window.cell 0 0).glyph = (world_mixed.window.cell 0 0).glyph := by
  obtain ⟨h1, h2⟩ := C12_heads_persist rain_spawning world_mixed rfl
    (fun _ => by norm_num [rain_spawning])
  obtain ⟨s1, hs⟩ := h2 (by simp [rain_spawning])
  exact ⟨s1, hs, h1 s1 hs 0 0 (by decide)⟩

/-- Claim C13: for every surface and every (row, col), fade changes only the color pair of
the cell (row, col): the glyph of that cell, every other cell (glyph and color pair), the
dimensions and the palette are as before. -/
theorem C13_fade_preserves_glyphs (row col : Nat) (s : World) :
    ((fade row col s).window.cell row col).glyph = (s.window.cell row col).glyph ∧
    ((fade row col s).window.cell row col).pair = faded (s.window.cell row col).pair ∧
    (∀ r c, ¬ (r = row ∧ c = col) →
      (fade row col s).window.cell r c = s.window.cell r c) ∧
    (fade row col s).window.rows = s.window.rows ∧
    (fade row col s).window.cols = s.window.cols ∧
    (fade row col s).palette = s.palette := by
  refine ⟨by simp [fade_cell_eq], by simp [fade_cell_eq], ?_, rfl, rfl, rfl⟩
  intro r c hne
  rw [fade_cell_eq, if_neg hne]

/-- Claim C17: for a non-empty character set of size n and a draw u with 0 <= u < 1, the
index floor(u * n) of get_random_character is at least 0 and below n, the lookup succeeds,
and the glyph highlight writes is a member of the character set. -/
theorem C17_glyph_in_character_set (rain : Rain) (row col : Nat) (s : World)
    (hc : rain.m_character_set ≠ [])
    (h0 : 0 ≤ rain.m_generator s.drawn) (h1 : rain.m_generator s.drawn < 1) :
    0 ≤ Int.floor (rain.m_generator s.drawn * (rain.m_character_set.length : ℚ)) ∧
    Int.floor (rain.m_generator s.drawn * (rain.m_character_set.length : ℚ))
      < (rain.m_character_set.length : Int) ∧
    Nat.floor (rain.m_generator s.drawn * (rain.m_character_set.length : ℚ))
      < rain.m_character_set.length ∧
    ∃ ch, rain.m_character_set[Nat.floor
        (rain.m_generator s.drawn * (rain.m_character_set.length : ℚ))]? = some ch ∧
      ch ∈ rain.m_character_set ∧
      get_random_character rain s = Except.ok (ch, { s with drawn := s.drawn + 1 }) ∧
      ∃ s1, highlight rain row col s = Except.ok s1 ∧
        s1.window.cell row col = { glyph := ch, pair := m_highlight_color_pair } ∧
        (s1.window.cell row col).glyph ∈ rain.m_character_set := by
  have hlen : 0 < rain.m_character_set.length := List.length_pos.mpr hc
  have hq : (0 : ℚ) < (rain.m_character_set.length : ℚ) := by exact_mod_cast hlen
  have hnn : 0 ≤ rain.m_generator s.drawn * (rain.m_character_set.length : ℚ) :=
    mul_nonneg h0 (le_of_lt hq)
  have hlt : rain.m_generator s.drawn * (rain.m_character_set.length : ℚ)
      < (rain.m_character_set.length : ℚ) := by nlinarith
  have hidx : Nat.floor (rain.m_generator s.drawn * (rain.m_character_set.length : ℚ))
      < rain.m_character_set.length := by
    rw [Nat.floor_lt hnn]
    exact hlt
  refine ⟨Int.floor_nonneg.mpr hnn, ?_, hidx, ?_⟩
  · rw [Int.floor_lt]
    exact_mod_cast hlt
  · refine ⟨rain.m_character_set[Nat.floor
      (rain.m_generator s.drawn * (rain.m_character_set.length : ℚ))],
      List.getElem?_eq_getElem hidx, List.getElem_mem _, ?_, ?_⟩
    · simp [get_random_character, m_distribution, List.getElem?_eq_getElem hidx]
    · have hh : highlight rain row col s = Except.ok (mvwaddch row col
          ⟨rain.m_character_set[Nat.floor
            (rain.m_generator s.drawn * (rain.m_character_set.length : ℚ))],
            m_highlight_color_pair⟩ { s with drawn := s.drawn + 1 }) := by
        simp [highlight, get_random_character, m_distribution,
          List.getElem?_eq_getElem hidx]
      exact ⟨_, hh, by simp [mvwaddch_cell], by simp [mvwaddch_cell, List.getElem_mem]⟩

/-- Claim C17 at the character set A, B, C and the draw 1/2. -/
theorem C17_glyph_in_character_set_witness :
    0 ≤ Int.floor (rain_eager.m_generator world_one.drawn *
      (rain_eager.m_character_set.length : ℚ)) ∧
    Int.floor (rain_eager.m_generator world_one.drawn *
      (rain_eager.m_character_set.length : ℚ)) < (rain_eager.m_character_set.length : Int) ∧
    Nat.floor (rain_eager.m_generator world_one.drawn *
      (rain_eager.m_character_set.length : ℚ)) < rain_eager.m_character_set.length ∧
    ∃ ch, rain_eager.m_character_set[Nat.floor
        (rain_eager.m_generator world_one.drawn *
          (rain_eager.m_character_set.length : ℚ))]? = some ch ∧
      ch ∈ rain_eager.m_character_set ∧
      get_random_character rain_eager world_one
        = Except.ok (ch, { world_one with drawn := world_one.drawn + 1 }) ∧
      ∃ s1, highlight rain_eager 0 0 world_one = Except.ok s1 ∧
        s1.window.cell 0 0 = { glyph := ch, pair := m_highlight_color_pair } ∧
        (s1.window.cell 0 0).glyph ∈ rain_eager.m_character_set :=
  C17_glyph_in_character_set rain_eager 0 0 world_one (by simp [rain_eager])
    (by norm_num [rain_eager]) (by norm_num [rain_eager])

/-! ## The palette the constructor defines -/

/-- The gradient loop defines the color indices and the color pairs it visits, and no
other. -/
theorem gradient_loop_palette (black : Nat) (n : Nat) :
    ∀ (i : Nat) (s : World),
      (∀ j, (gradient_loop black n i s).palette.color j =
        if 1 + i ≤ j ∧ j < 1 + i + n then (0, (((j - 1) * 50 : Nat) : Int), 0)
        else s.palette.color j) ∧
      (∀ j, (gradient_loop black n i s).palette.pair j =
        if 1 + i ≤ j ∧ j < 1 + i + n then ((j : Int), (black : Int))
        else s.palette.pair j) ∧
      (gradient_loop black n i s).window = s.window := by
  induction n with
  | zero =>
    intro i s
    refine ⟨fun j => ?_, fun j => ?_, rfl⟩
    · rw [if_neg (by omega)]; rfl
    · rw [if_neg (by omega)]; rfl
  | succ n ih =>
    intro i s
    simp only [gradient_loop]
    obtain ⟨a, b, c⟩ := ih (i + 1)
      (init_pair (m_begin_gradient_color_pair + i) ((m_begin_gradient_color_pair + i : Nat) : Int)
        (black : Int)
        (init_color (m_begin_gradient_color_pair + i) 0
          ((i * (1000 / m_gradient_steps) : Nat) : Int) 0 s))
    refine ⟨fun j => ?_, fun j => ?_, ?_⟩
    · rw [a j]
      by_cases h1 : 1 + (i + 1) ≤ j ∧ j < 1 + (i + 1) + n
      · rw [if_pos h1, if_pos (by omega)]
      · rw [if_neg h1]
        by_cases h2 : j = 1 + i
        · subst h2
          rw [if_pos (by omega)]
          simp [init_pair, init_color, m_begin_gradient_color_pair, m_gradient_steps]
        · rw [if_neg (by omega)]
          simp only [init_pair, init_color, m_begin_gradient_color_pair]
          rw [if_neg h2]
    · rw [b j]
      by_cases h1 : 1 + (i + 1) ≤ j ∧ j < 1 + (i + 1) + n
      · rw [if_pos h1, if_pos (by omega)]
      · rw [if_neg h1]
        by_cases h2 : j = 1 + i
        · subst h2
          rw [if_pos (by omega)]
          simp [init_pair, m_begin_gradient_color_pair]
        · rw [if_neg (by omega)]
          simp only [init_pair, init_color, m_begin_gradient_color_pair]
          rw [if_neg h2]
    · rw [c]
      rfl

/-- The palette after construction, identifier by identifier. -/
theorem ctor_palette (density roll_rate fade_rate : ℚ) (generator : Nat → ℚ)
    (character_set : List Int) (s : World) :
    (∀ j, (Rain.ctor density roll_rate fade_rate generator character_set s).2.palette.color j =
      if 1 ≤ j ∧ j < 21 then (0, (((j - 1) * 50 : Nat) : Int), 0)
      else if j = 21 then (700, 700, 700) else s.palette.color j) ∧
    (∀ j, (Rain.ctor density roll_rate fade_rate generator character_set s).2.palette.pair j =
      if 1 ≤ j ∧ j < 21 then ((j : Int), 1)
      else if j = 21 then (1, 21) else s.palette.pair j) := by
  obtain ⟨a, b, _⟩ := gradient_loop_palette m_begin_gradient_color_pair m_gradient_steps 0
    (init_color m_highlight_color_pair 700 700 700
      (init_color m_begin_gradient_color_pair 0 0 0 s))
  constructor
  · intro j
    simp only [Rain.ctor, wbkgd, init_pair]
    rw [a j]
    simp only [m_gradient_steps, m_highlight_color_pair, m_begin_gradient_color_pair,
      init_color]
    by_cases h1 : 1 ≤ j ∧ j < 21
    · rw [if_pos (by omega), if_pos h1]
    · rw [if_neg (by omega), if_neg h1]
      by_cases h2 : j = 21
      · rw [if_pos h2, if_pos h2]
      · rw [if_neg h2, if_neg h2, if_neg (by omega)]
  · intro j
    simp only [Rain.ctor, wbkgd, init_pair]
    by_cases h2 : j = m_highlight_color_pair
    · have h21 : j = 21 := h2
      rw [if_pos h2, if_neg (by omega), if_pos h21]
      simp [m_begin_gradient_color_pair, m_highlight_color_pair, m_gradient_steps]
    · have h21 : j ≠ 21 := h2
      rw [if_neg h2, b j]
      simp only [m_gradient_steps, m_begin_gradient_color_pair, init_color]
      by_cases h1 : 1 ≤ j ∧ j < 21
      · rw [if_pos (by omega), if_pos h1]
        simp
      · rw [if_neg (by omega), if_neg h1, if_neg h21]

/-- Claim C14: after construction, for every i in [0, 20) color index 1 + i is (0, 50 i, 0)
and color pair 1 + i is (1 + i, 1); slot 0 of the range is black, the green channel grows
strictly with i and stays at or below 1000, the last trail slot (pair 20) has green 950;
color index 21 is (700, 700, 700) and the head pair 21 is (1, 21), which differs from every
trail pair. -/
theorem C14_palette_after_construction (density roll_rate fade_rate : ℚ)
    (generator : Nat → ℚ) (character_set : List Int) (s : World) :
    (∀ i, i < m_gradient_steps →
      (Rain.ctor density roll_rate fade_rate generator character_set s).2.palette.color
          (m_begin_gradient_color_pair + i) = (0, 50 * (i : Int), 0) ∧
      (Rain.ctor density roll_rate fade_rate generator character_set s).2.palette.pair
          (m_begin_gradient_color_pair + i) = (1 + (i : Int), 1)) ∧
    (Rain.ctor density roll_rate fade_rate generator character_set s).2.palette.color 1
        = (0, 0, 0) ∧
    (∀ i j, i < j → j < m_gradient_steps →
      ((Rain.ctor density roll_rate fade_rate generator character_set s).2.palette.color
          (m_begin_gradient_color_pair + i)).2.1 <
      ((Rain.ctor density roll_rate fade_rate generator character_set s).2.palette.color
          (m_begin_gradient_color_pair + j)).2.1) ∧
    (∀ i, i < m_gradient_steps →
      ((Rain.ctor density roll_rate fade_rate generator character_set s).2.palette.color
          (m_begin_gradient_color_pair + i)).2.1 ≤ 1000) ∧
    (Rain.ctor density roll_rate fade_rate generator character_set s).2.palette.color 20
        = (0, 950, 0) ∧
    (Rain.ctor density roll_rate fade_rate generator character_set s).2.palette.color
        m_highlight_color_pair = (700, 700, 700) ∧
    (Rain.ctor density roll_rate fade_rate generator character_set s).2.palette.pair
        m_highlight_color_pair = (1, 21) ∧
    (∀ i, i < m_gradient_steps →
      (Rain.ctor density roll_rate fade_rate generator character_set s).2.palette.pair
          m_highlight_color_pair ≠
      (Rain.ctor density roll_rate fade_rate generator character_set s).2.palette.pair
          (m_begin_gradient_color_pair + i)) := by
  obtain ⟨a, b⟩ := ctor_palette density roll_rate fade_rate generator character_set s
  have trail_color : ∀ i, i < 20 →
      (Rain.ctor density roll_rate fade_rate generator character_set s).2.palette.color (1 + i)
        = (0, 50 * (i : Int), 0) := by
    intro i hi
    rw [a (1 + i), if_pos (by omega)]
    have e : 1 + i - 1 = i := by omega
    rw [e]
    simp only [Prod.mk.injEq, true_and, and_true]
    push_cast
    ring
  have trail_pair : ∀ i, i < 20 →
      (Rain.ctor density roll_rate fade_rate generator character_set s).2.palette.pair (1 + i)
        = (1 + (i : Int), 1) := by
    intro i hi
    rw [b (1 + i), if_pos (by omega)]
    simp
  have head_pair :
      (Rain.ctor density roll_rate fade_rate generator character_set s).2.palette.pair 21
        = (1, 21) := by
    rw [b 21, if_neg (by omega), if_pos rfl]
  refine ⟨fun i hi => ⟨trail_color i hi, trail_pair i hi⟩, ?_, ?_, ?_, ?_, ?_, head_pair, ?_⟩
  · have := trail_color 0 (by omega)
    simpa using this
  · intro i j hij hj
    have hj20 : j < 20 := hj
    show ((Rain.ctor density roll_rate fade_rate generator character_set s).2.palette.color
        (1 + i)).2.1 < ((Rain.ctor density roll_rate fade_rate generator character_set
        s).2.palette.color (1 + j)).2.1
    rw [trail_color i (by omega), trail_color j hj20]
    show 50 * (i : Int) < 50 * (j : Int)
    omega
  · intro i hi
    have hi20 : i < 20 := hi
    show ((Rain.ctor density roll_rate fade_rate generator character_set s).2.palette.color
        (1 + i)).2.1 ≤ 1000
    rw [trail_color i hi20]
    show 50 * (i : Int) ≤ 1000
    omega
  · have := trail_color 19 (by omega)
    simpa using this
  · show (Rain.ctor density roll_rate fade_rate generator character_set s).2.palette.color 21
      = (700, 700, 700)
    rw [a 21, if_neg (by omega), if_pos rfl]
  · intro i hi
    have hi20 : i < 20 := hi
    show (Rain.ctor density roll_rate fade_rate generator character_set s).2.palette.pair 21
      ≠ (Rain.ctor density roll_rate fade_rate generator character_set s).2.palette.pair (1 + i)
    rw [head_pair, trail_pair i hi20]
    intro h
    have := congrArg Prod.snd h
    simp at this

/-! ## The palette outside the reserved range -/

theorem key_of_mem_map_insert {V : Type} (k : Nat) (v : V) (l : List (Nat × V)) (j : Nat)
    (hj : j ∈ (map_insert k v l).map Prod.fst) : j = k ∨ j ∈ l.map Prod.fst := by
  obtain ⟨x, hx, rfl⟩ := List.mem_map.mp hj
  rcases mem_map_insert k v l x hx with h | h
  · exact Or.inl (by rw [h])
  · exact Or.inr (List.mem_map.mpr ⟨x, h, rfl⟩)

/-- The snapshot loop saves no identifier besides those it visits. -/
theorem save_loop_keys (s : World) (n : Nat) :
    ∀ (i : Nat) (saved : List (Nat × RGB) × List (Nat × FgBg)),
      (∀ j, j ∈ (save_loop s n i saved).1.map Prod.fst →
        j ∈ saved.1.map Prod.fst ∨ (i ≤ j ∧ j < i + n)) ∧
      (∀ j, j ∈ (save_loop s n i saved).2.map Prod.fst →
        j ∈ saved.2.map Prod.fst ∨ (i ≤ j ∧ j < i + n)) := by
  induction n with
  | zero =>
    intro i saved
    exact ⟨fun j hj => Or.inl hj, fun j hj => Or.inl hj⟩
  | succ n ih =>
    intro i saved
    obtain ⟨a, b⟩ := ih (i + 1)
      (map_insert i (color_content i s) saved.1, map_insert i (pair_content i s) saved.2)
    constructor
    · intro j hj
      rcases a j hj with h | h
      · rcases key_of_mem_map_insert _ _ _ _ h with h1 | h1
        · exact Or.inr (by omega)
        · exact Or.inl h1
      · exact Or.inr (by omega)
    · intro j hj
      rcases b j hj with h | h
      · rcases key_of_mem_map_insert _ _ _ _ h with h1 | h1
        · exact Or.inr (by omega)
        · exact Or.inl h1
      · exact Or.inr (by omega)

/-- A completed call of paint leaves the palette as it was. -/
theorem paint_palette (rain : Rain) (s s1 : World) (h : paint rain s = Except.ok s1) :
    s1.palette = s.palette := by
  have col_step : ∀ col (t t1 : World), t.palette = s.palette →
      paint_col rain s.window.rows col t = Except.ok t1 → t1.palette = s.palette := by
    intro col t t1 hP ht
    obtain ⟨t0, h0, h1⟩ := paint_col_inv rain s.window.rows col t t1 ht
    have hP0 := paint_rows_preserve rain s.window.rows col (fun _ w => w.palette = s.palette)
      (fun row w w1 _ hw hstep =>
        (paint_cell_inv rain s.window.rows row col w w1 hstep).2.2.1.trans hw)
      s.window.rows 0 t t0 (by omega) hP h0
    exact (paint_spawn_inv rain col t0 t1 h1).2.2.1.trans hP0
  exact paint_cols_preserve rain s.window.rows s.window.cols (fun _ w => w.palette = s.palette)
    (fun col w w1 _ hw hstep => col_step col w w1 hw hstep)
    s.window.cols 0 s s1 (by omega) rfl h

/-- Any number of completed calls of paint leaves the palette as it was. -/
theorem paint_frames_palette (rain : Rain) (n : Nat) :
    ∀ (s s1 : World), paint_frames rain n s = Except.ok s1 → s1.palette = s.palette := by
  induction n with
  | zero =>
    intro s s1 h
    simp only [paint_frames, Except.ok.injEq] at h
    rw [← h]
  | succ n ih =>
    intro s s1 h
    simp only [paint_frames] at h
    split at h
    · rename_i t ht
      exact (ih t s1 h).trans (paint_palette rain s t ht)
    · simp at h

/-- The constructor leaves the identifiers outside the reserved range as they were. -/
theorem ctor_outside (density roll_rate fade_rate : ℚ) (generator : Nat → ℚ)
    (character_set : List Int) (s : World) (j : Nat)
    (hj : j < m_begin_gradient_color_pair ∨ m_highlight_color_pair < j) :
    (Rain.ctor density roll_rate fade_rate generator character_set s).2.palette.color j
      = s.palette.color j ∧
    (Rain.ctor density roll_rate fade_rate generator character_set s).2.palette.pair j
      = s.palette.pair j := by
  obtain ⟨a, b⟩ := ctor_palette density roll_rate fade_rate generator character_set s
  simp only [m_begin_gradient_color_pair, m_highlight_color_pair, m_gradient_steps] at hj
  constructor
  · rw [a j, if_neg (by omega), if_neg (by omega)]
  · rw [b j, if_neg (by omega), if_neg (by omega)]

/-- The destructor of an engine built by the constructor leaves the identifiers outside the
reserved range as they are. -/
theorem dtor_outside (density roll_rate fade_rate : ℚ) (generator : Nat → ℚ)
    (character_set : List Int) (s0 s : World) (j : Nat)
    (hj : j < m_begin_gradient_color_pair ∨ m_highlight_color_pair < j) :
    ((Rain.ctor density roll_rate fade_rate generator character_set s0).1.dtor s).palette.color j
      = s.palette.color j ∧
    ((Rain.ctor density roll_rate fade_rate generator character_set s0).1.dtor s).palette.pair j
      = s.palette.pair j := by
  obtain ⟨a, b, _, _, _⟩ := save_loop_spec s0
    (m_highlight_color_pair + 1 - m_begin_gradient_color_pair) m_begin_gradient_color_pair
    ([], []) (by simp) (by simp)
  obtain ⟨k1, k2⟩ := save_loop_keys s0
    (m_highlight_color_pair + 1 - m_begin_gradient_color_pair) m_begin_gradient_color_pair
    ([], [])
  simp only [m_begin_gradient_color_pair, m_highlight_color_pair, m_gradient_steps] at hj
  have n1 : j ∉ (save_loop s0 (m_highlight_color_pair + 1 - m_begin_gradient_color_pair)
      m_begin_gradient_color_pair ([], [])).1.map Prod.fst := by
    intro hmem
    rcases k1 j hmem with h | h
    · simp at h
    · simp only [m_begin_gradient_color_pair, m_highlight_color_pair, m_gradient_steps] at h
      omega
  have n2 : j ∉ (save_loop s0 (m_highlight_color_pair + 1 - m_begin_gradient_color_pair)
      m_begin_gradient_color_pair ([], [])).2.map Prod.fst := by
    intro hmem
    rcases k2 j hmem with h | h
    · simp at h
    · simp only [m_begin_gradient_color_pair, m_highlight_color_pair, m_gradient_steps] at h
      omega
  constructor
  · simp only [Rain.dtor, Rain.ctor]
    rw [restore_pairs_color, restore_colors_color s0.palette.color _ _ a j, if_neg n1]
  · simp only [Rain.dtor, Rain.ctor]
    rw [restore_pairs_pair s0.palette.pair _ _ b j, if_neg n2, restore_colors_pair]

/-- Claim C19: for every initial palette, the constructor, every completed call of paint and
the destructor leave the definition of every color index and of every color pair outside
[m_begin_gradient_color_pair, m_highlight_color_pair] = [1, 21] as it was, and so does every
completed lifecycle; in particular color pair 0 is never redefined. -/
theorem C19_palette_frame (density roll_rate fade_rate : ℚ) (generator : Nat → ℚ)
    (character_set : List Int) (s : World) :
    (∀ j, j < m_begin_gradient_color_pair ∨ m_highlight_color_pair < j →
      (Rain.ctor density roll_rate fade_rate generator character_set s).2.palette.color j
        = s.palette.color j ∧
      (Rain.ctor density roll_rate fade_rate generator character_set s).2.palette.pair j
        = s.palette.pair j) ∧
    (∀ (rain : Rain) (t t1 : World), paint rain t = Except.ok t1 → t1.palette = t.palette) ∧
    (∀ (t : World) j, j < m_begin_gradient_color_pair ∨ m_highlight_color_pair < j →
      ((Rain.ctor density roll_rate fade_rate generator character_set s).1.dtor t).palette.color j
        = t.palette.color j ∧
      ((Rain.ctor density roll_rate fade_rate generator character_set s).1.dtor t).palette.pair j
        = t.palette.pair j) ∧
    (∀ n s1, lifecycle density roll_rate fade_rate generator character_set n s = Except.ok s1 →
      ∀ j, j < m_begin_gradient_color_pair ∨ m_highlight_color_pair < j →
        s1.palette.color j = s.palette.color j ∧ s1.palette.pair j = s.palette.pair j) ∧
    (∀ n s1, lifecycle density roll_rate fade_rate generator character_set n s = Except.ok s1 →
      s1.palette.pair 0 = s.palette.pair 0) := by
  have life : ∀ n s1,
      lifecycle density roll_rate fade_rate generator character_set n s = Except.ok s1 →
      ∀ j, j < m_begin_gradient_color_pair ∨ m_highlight_color_pair < j →
        s1.palette.color j = s.palette.color j ∧ s1.palette.pair j = s.palette.pair j := by
    intro n s1 h j hj
    simp only [lifecycle] at h
    split at h
    · rename_i s2 h2
      simp only [Except.ok.injEq] at h
      have hp := paint_frames_palette _ n _ s2 h2
      obtain ⟨d1, d2⟩ := dtor_outside density roll_rate fade_rate generator character_set
        s s2 j hj
      obtain ⟨c1, c2⟩ := ctor_outside density roll_rate fade_rate generator character_set
        s j hj
      rw [← h, d1, d2, hp]
      exact ⟨c1, c2⟩
    · simp at h
  refine ⟨fun j hj => ctor_outside density roll_rate fade_rate generator character_set s j hj,
    fun rain t t1 h => paint_palette rain t t1 h,
    fun t j hj => dtor_outside density roll_rate fade_rate generator character_set s t j hj,
    life, ?_⟩
  intro n s1 h
  exact (life n s1 h 0 (Or.inl (by decide))).2

/-! ## The reserved range is closed under paint -/

theorem faded_in_range (p : Nat)
    (h : m_begin_gradient_color_pair ≤ p ∧ p ≤ m_highlight_color_pair) :
    m_begin_gradient_color_pair ≤ faded p ∧ faded p ≤ m_highlight_color_pair := by
  simp only [faded, m_highlight_color_pair, m_begin_gradient_color_pair, m_gradient_steps] at *
  split <;> omega

theorem decode_in_range (p : Nat)
    (h : m_begin_gradient_color_pair ≤ p ∧ p ≤ m_highlight_color_pair) :
    decode p ≠ UNKNOWN := by
  simp only [decode, UNKNOWN, m_highlight_color_pair, m_begin_gradient_color_pair,
    m_gradient_steps] at *
  by_cases h21 : p = 21
  · rw [if_pos h21]; simp
  · rw [if_neg h21, if_pos (by omega)]; simp

/-- Every completed visit of a cell keeps the cells of the window inside the reserved
range. -/
theorem paint_cell_in_range (rain : Rain) (rows0 cols0 rows row col : Nat) (t t1 : World)
    (h : paint_cell rain rows row col t = Except.ok t1)
    (hP : ∀ r c, r < rows0 → c < cols0 →
      m_begin_gradient_color_pair ≤ (t.window.cell r c).pair ∧
      (t.window.cell r c).pair ≤ m_highlight_color_pair) :
    ∀ r c, r < rows0 → c < cols0 →
      m_begin_gradient_color_pair ≤ (t1.window.cell r c).pair ∧
      (t1.window.cell r c).pair ≤ m_highlight_color_pair := by
  have hhead : m_begin_gradient_color_pair ≤ m_highlight_color_pair ∧
      m_highlight_color_pair ≤ m_highlight_color_pair := by decide
  obtain ⟨_, _, _, hcases⟩ := paint_cell_inv rain rows row col t t1 h
  intro r c hr hc
  rcases hcases with ⟨hsame, _⟩ | ⟨_, _, _, ch, _, hcell⟩ | ⟨_, _, _, hcell⟩ | ⟨_, _, hcell⟩
  · rw [hsame]
    exact hP r c hr hc
  · rw [hcell r c]
    by_cases h1 : r = row + 1 ∧ c = col
    · rw [if_pos h1]
      exact hhead
    · rw [if_neg h1]
      by_cases h2 : r = row ∧ c = col
      · rw [if_pos h2]
        obtain ⟨rfl, rfl⟩ := h2
        exact faded_in_range _ (hP r c hr hc)
      · rw [if_neg h2]
        exact hP r c hr hc
  · rw [hcell r c]
    by_cases h2 : r = row ∧ c = col
    · rw [if_pos h2]
      obtain ⟨rfl, rfl⟩ := h2
      exact faded_in_range _ (hP r c hr hc)
    · rw [if_neg h2]
      exact hP r c hr hc
  · rw [hcell r c]
    by_cases h2 : r = row ∧ c = col
    · rw [if_pos h2]
      obtain ⟨rfl, rfl⟩ := h2
      exact faded_in_range _ (hP r c hr hc)
    · rw [if_neg h2]
      exact hP r c hr hc

/-- Every completed spawn check keeps the cells of the window inside the reserved range. -/
theorem paint_spawn_in_range (rain : Rain) (rows0 cols0 col : Nat) (t t1 : World)
    (h : paint_spawn rain col t = Except.ok t1)
    (hP : ∀ r c, r < rows0 → c < cols0 →
      m_begin_gradient_color_pair ≤ (t.window.cell r c).pair ∧
      (t.window.cell r c).pair ≤ m_highlight_color_pair) :
    ∀ r c, r < rows0 → c < cols0 →
      m_begin_gradient_color_pair ≤ (t1.window.cell r c).pair ∧
      (t1.window.cell r c).pair ≤ m_highlight_color_pair := by
  obtain ⟨_, _, _, hcases⟩ := paint_spawn_inv rain col t t1 h
  intro r c hr hc
  rcases hcases with ⟨hsame, _⟩ | ⟨_, _, ch, _, hcell⟩
  · rw [hsame]
    exact hP r c hr hc
  · rw [hcell r c]
    by_cases h1 : r = 0 ∧ c = col
    · rw [if_pos h1]
      exact ⟨(by decide : m_begin_gradient_color_pair ≤ m_highlight_color_pair),
        Nat.le_refl _⟩
    · rw [if_neg h1]
      exact hP r c hr hc

/-- Every completed visit of a column keeps the cells of the window inside the reserved
range. -/
theorem paint_col_in_range (rain : Rain) (rows0 cols0 rows col : Nat) (t t1 : World)
    (h : paint_col rain rows col t = Except.ok t1)
    (hP : ∀ r c, r < rows0 → c < cols0 →
      m_begin_gradient_color_pair ≤ (t.window.cell r c).pair ∧
      (t.window.cell r c).pair ≤ m_highlight_color_pair) :
    ∀ r c, r < rows0 → c < cols0 →
      m_begin_gradient_color_pair ≤ (t1.window.cell r c).pair ∧
      (t1.window.cell r c).pair ≤ m_highlight_color_pair := by
  obtain ⟨t0, h0, h1⟩ := paint_col_inv rain rows col t t1 h
  have hP0 := paint_rows_preserve rain rows col
    (fun _ w => ∀ r c, r < rows0 → c < cols0 →
      m_begin_gradient_color_pair ≤ (w.window.cell r c).pair ∧
      (w.window.cell r c).pair ≤ m_highlight_color_pair)
    (fun row w w1 _ hw hstep => paint_cell_in_range rain rows0 cols0 rows row col w w1 hstep hw)
    rows 0 t t0 (by omega) hP h0
  exact paint_spawn_in_range rain rows0 cols0 col t0 t1 h1 hP0

/-- Every completed call of paint keeps the dimensions of the window. -/
theorem paint_dims (rain : Rain) (s s1 : World) (h : paint rain s = Except.ok s1) :
    s1.window.rows = s.window.rows ∧ s1.window.cols = s.window.cols := by
  have col_step : ∀ col (t t1 : World),
      (t.window.rows = s.window.rows ∧ t.window.cols = s.window.cols) →
      paint_col rain s.window.rows col t = Except.ok t1 →
      t1.window.rows = s.window.rows ∧ t1.window.cols = s.window.cols := by
    intro col t t1 hP ht
    obtain ⟨t0, h0, h1⟩ := paint_col_inv rain s.window.rows col t t1 ht
    have hP0 := paint_rows_preserve rain s.window.rows col
      (fun _ w => w.window.rows = s.window.rows ∧ w.window.cols = s.window.cols)
      (fun row w w1 _ hw hstep =>
        ⟨(paint_cell_inv rain s.window.rows row col w w1 hstep).1.trans hw.1,
          (paint_cell_inv rain s.window.rows row col w w1 hstep).2.1.trans hw.2⟩)
      s.window.rows 0 t t0 (by omega) hP h0
    exact ⟨(paint_spawn_inv rain col t0 t1 h1).1.trans hP0.1,
      (paint_spawn_inv rain col t0 t1 h1).2.1.trans hP0.2⟩
  exact paint_cols_preserve rain s.window.rows s.window.cols
    (fun _ w => w.window.rows = s.window.rows ∧ w.window.cols = s.window.cols)
    (fun col w w1 _ hw hstep => col_step col w w1 hw hstep)
    s.window.cols 0 s s1 (by omega) ⟨rfl, rfl⟩ h

/-- Claim C15: if before a call of paint every cell of the window carries a color pair in the
reserved range [1, 21], then for every density, roll rate and fade rate, every non-empty
character set and all draws in [0,1) the call completes, the dimensions are as before, and
every cell of the window again carries a color pair in [1, 21], so no cell decodes as
UNKNOWN. -/
theorem C15_reserved_range_closure (rain : Rain) (s : World)
    (hc : rain.m_character_set ≠ [])
    (hu : ∀ i, 0 ≤ rain.m_generator i ∧ rain.m_generator i < 1)
    (hin : ∀ r c, r < s.window.rows → c < s.window.cols →
      m_begin_gradient_color_pair ≤ (s.window.cell r c).pair ∧
      (s.window.cell r c).pair ≤ m_highlight_color_pair) :
    ∃ s1, paint rain s = Except.ok s1 ∧
      s1.window.rows = s.window.rows ∧ s1.window.cols = s.window.cols ∧
      ∀ r c, r < s1.window.rows → c < s1.window.cols →
        m_begin_gradient_color_pair ≤ (s1.window.cell r c).pair ∧
        (s1.window.cell r c).pair ≤ m_highlight_color_pair ∧
        1 ≤ (s1.window.cell r c).pair ∧ (s1.window.cell r c).pair ≤ 21 ∧
        decode (s1.window.cell r c).pair ≠ UNKNOWN := by
  obtain ⟨s1, h1⟩ := paint_ok rain s hc hu
  obtain ⟨d1, d2⟩ := paint_dims rain s s1 h1
  have key := paint_cols_preserve rain s.window.rows s.window.cols
    (fun _ w => ∀ r c, r < s.window.rows → c < s.window.cols →
      m_begin_gradient_color_pair ≤ (w.window.cell r c).pair ∧
      (w.window.cell r c).pair ≤ m_highlight_color_pair)
    (fun col w w1 _ hw hstep =>
      paint_col_in_range rain s.window.rows s.window.cols s.window.rows col w w1 hstep hw)
    s.window.cols 0 s s1 (by omega) hin h1
  refine ⟨s1, h1, d1, d2, ?_⟩
  intro r c hr hcol
  rw [d1] at hr
  rw [d2] at hcol
  have hk := key r c hr hcol
  exact ⟨hk.1, hk.2, hk.1, hk.2, decode_in_range _ hk⟩

/-- Claim C15 on a 3 x 2 surface inside the reserved range, with the rates of main. -/
theorem C15_reserved_range_closure_witness :
    ∃ s1, paint rain_main world_reserved = Except.ok s1 ∧
      s1.window.rows = world_reserved.window.rows ∧
      s1.window.cols = world_reserved.window.cols ∧
      ∀ r c, r < s1.window.rows → c < s1.window.cols →
        m_begin_gradient_color_pair ≤ (s1.window.cell r c).pair ∧
        (s1.window.cell r c).pair ≤ m_highlight_color_pair ∧
        1 ≤ (s1.window.cell r c).pair ∧ (s1.window.cell r c).pair ≤ 21 ∧
        decode (s1.window.cell r c).pair ≠ UNKNOWN :=
  C15_reserved_range_closure rain_main world_reserved (by simp [rain_main])
    (fun _ => by norm_num [rain_main])
    (fun r c hr hc => by
      have hr3 : r < 3 := hr
      have hc2 : c < 2 := hc
      interval_cases r <;> interval_cases c <;> decide)

/-! ## The number of heads in a column -/

theorem head_count_card (s : World) (rows col : Nat) :
    head_count s rows col = ((Finset.range rows).filter (fun r => head_at s r col)).card := by
  unfold head_count
  rw [List.countP_eq_length_filter]
  rfl

/-- A column whose heads all were heads before has no more heads than before. -/
theorem head_count_mono (s s1 : World) (rows col : Nat)
    (h : ∀ r, r < rows → head_at s1 r col → head_at s r col) :
    head_count s1 rows col ≤ head_count s rows col := by
  rw [head_count_card, head_count_card]
  apply Finset.card_le_card
  intro r hr
  simp only [Finset.mem_filter, Finset.mem_range] at hr ⊢
  exact ⟨hr.1, h r hr.1 hr.2⟩

/-- A column in which one head has gone and the only new head is in the row below it has
no more heads than before. -/
theorem head_count_roll (s s1 : World) (rows row col : Nat) (hrow : row < rows)
    (hhead : head_at s row col)
    (h : ∀ r, r < rows → head_at s1 r col → r = row + 1 ∨ (r ≠ row ∧ head_at s r col)) :
    head_count s1 rows col ≤ head_count s rows col := by
  rw [head_count_card, head_count_card]
  have hmem : row ∈ (Finset.range rows).filter (fun r => head_at s r col) := by
    simp only [Finset.mem_filter, Finset.mem_range]
    exact ⟨hrow, hhead⟩
  have hsub : (Finset.range rows).filter (fun r => head_at s1 r col) ⊆
      insert (row + 1) (((Finset.range rows).filter (fun r => head_at s r col)).erase row) := by
    intro r hr
    simp only [Finset.mem_filter, Finset.mem_range] at hr
    simp only [Finset.mem_insert, Finset.mem_erase, Finset.mem_filter, Finset.mem_range]
    rcases h r hr.1 hr.2 with h1 | ⟨h1, h2⟩
    · exact Or.inl h1
    · exact Or.inr ⟨h1, hr.1, h2⟩
  have h1 := Finset.card_le_card hsub
  have h2 := Finset.card_insert_le (row + 1)
    (((Finset.range rows).filter (fun r => head_at s r col)).erase row)
  have h3 := Finset.card_erase_of_mem hmem
  have h4 := Finset.card_pos.mpr ⟨row, hmem⟩
  omega

theorem head_count_eq_zero (s : World) (rows col : Nat) :
    head_count s rows col = 0 ↔ ∀ r, r < rows → ¬ head_at s r col := by
  rw [head_count_card, Finset.card_eq_zero, Finset.filter_eq_empty_iff]
  simp only [Finset.mem_range]

/-- Every completed visit of a cell of a window inside the reserved range leaves no column
with more heads than before. -/
theorem paint_cell_count (rain : Rain) (rows cols row col : Nat) (t t1 : World)
    (h : paint_cell rain rows row col t = Except.ok t1)
    (hrow : row < rows) (hcol : col < cols)
    (hP : ∀ r c, r < rows → c < cols →
      m_begin_gradient_color_pair ≤ (t.window.cell r c).pair ∧
      (t.window.cell r c).pair ≤ m_highlight_color_pair) :
    ∀ c, head_count t1 rows c ≤ head_count t rows c := by
  obtain ⟨_, _, _, hcases⟩ := paint_cell_inv rain rows row col t t1 h
  intro c
  rcases hcases with ⟨hsame, _⟩ | ⟨hhead, _, _, ch, _, hcell⟩ | ⟨hhead, _, _, hcell⟩ |
    ⟨hfree, _, hcell⟩
  · apply head_count_mono
    intro r _ hh
    unfold head_at at hh ⊢
    rw [hsame] at hh
    exact hh
  · by_cases hc : c = col
    · subst hc
      apply head_count_roll t t1 rows row c hrow hhead
      intro r _ hh
      unfold head_at at hh
      rw [hcell r c] at hh
      by_cases h1 : r = row + 1
      · exact Or.inl h1
      · rw [if_neg (fun hx => h1 hx.1)] at hh
        by_cases h2 : r = row
        · rw [if_pos ⟨h2, rfl⟩] at hh
          unfold head_at at hhead
          rw [hhead] at hh
          exact absurd hh faded_head
        · rw [if_neg (fun hx => h2 hx.1)] at hh
          exact Or.inr ⟨h2, hh⟩
    · apply head_count_mono
      intro r _ hh
      unfold head_at at hh ⊢
      rw [hcell r c, if_neg (fun hx => hc hx.2), if_neg (fun hx => hc hx.2)] at hh
      exact hh
  · apply head_count_mono
    intro r _ hh
    unfold head_at at hh ⊢
    rw [hcell r c] at hh
    by_cases h2 : r = row ∧ c = col
    · rw [if_pos h2] at hh
      unfold head_at at hhead
      rw [hhead] at hh
      exact absurd hh faded_head
    · rw [if_neg h2] at hh
      exact hh
  · apply head_count_mono
    intro r _ hh
    unfold head_at at hh ⊢
    rw [hcell r c] at hh
    by_cases h2 : r = row ∧ c = col
    · rw [if_pos h2] at hh
      have hle := (hP row col hrow hcol).2
      exact absurd hh (faded_ne_head _ (by omega))
    · rw [if_neg h2] at hh
      exact hh

/-- Claim C16: with density 0 and draws in [0,1), on a window whose cells all carry color
pairs in the reserved range [1, 21], for every roll rate and fade rate, after every completed
call of paint the number of heads in each column is at most the number before, and a column
without a head before has none after; the call completes when the character set is
non-empty. -/
theorem C16_no_new_drops (rain : Rain) (s : World)
    (hd : rain.m_density = 0)
    (hu : ∀ i, 0 ≤ rain.m_generator i ∧ rain.m_generator i < 1)
    (hin : ∀ r c, r < s.window.rows → c < s.window.cols →
      m_begin_gradient_color_pair ≤ (s.window.cell r c).pair ∧
      (s.window.cell r c).pair ≤ m_highlight_color_pair) :
    (∀ s1, paint rain s = Except.ok s1 → ∀ c, c < s.window.cols →
      head_count s1 s.window.rows c ≤ head_count s s.window.rows c ∧
      ((∀ r, r < s.window.rows → ¬ head_at s r c) →
        ∀ r, r < s.window.rows → ¬ head_at s1 r c)) ∧
    (rain.m_character_set ≠ [] → ∃ s1, paint rain s = Except.ok s1) := by
  have col_step : ∀ col (t t1 : World), col < s.window.cols →
      ((∀ r c, r < s.window.rows → c < s.window.cols →
        m_begin_gradient_color_pair ≤ (t.window.cell r c).pair ∧
        (t.window.cell r c).pair ≤ m_highlight_color_pair) ∧
       ∀ c, head_count t s.window.rows c ≤ head_count s s.window.rows c) →
      paint_col rain s.window.rows col t = Except.ok t1 →
      ((∀ r c, r < s.window.rows → c < s.window.cols →
        m_begin_gradient_color_pair ≤ (t1.window.cell r c).pair ∧
        (t1.window.cell r c).pair ≤ m_highlight_color_pair) ∧
       ∀ c, head_count t1 s.window.rows c ≤ head_count s s.window.rows c) := by
    intro col t t1 hcol hP ht
    obtain ⟨t0, h0, h1⟩ := paint_col_inv rain s.window.rows col t t1 ht
    have hP0 := paint_rows_preserve rain s.window.rows col
      (fun _ w => (∀ r c, r < s.window.rows → c < s.window.cols →
        m_begin_gradient_color_pair ≤ (w.window.cell r c).pair ∧
        (w.window.cell r c).pair ≤ m_highlight_color_pair) ∧
        ∀ c, head_count w s.window.rows c ≤ head_count s s.window.rows c)
      (fun row w w1 hrow hw hstep =>
        ⟨paint_cell_in_range rain s.window.rows s.window.cols s.window.rows row col w w1
            hstep hw.1,
          fun c => Nat.le_trans
            (paint_cell_count rain s.window.rows s.window.cols row col w w1 hstep hrow hcol
              hw.1 c) (hw.2 c)⟩)
      s.window.rows 0 t t0 (by omega) hP h0
    obtain ⟨_, _, _, hcases⟩ := paint_spawn_inv rain col t0 t1 h1
    rcases hcases with ⟨hsame, _⟩ | ⟨hadd, _⟩
    · refine ⟨fun r c hr hc => by rw [hsame]; exact hP0.1 r c hr hc, fun c => ?_⟩
      refine Nat.le_trans (head_count_mono t0 t1 s.window.rows c ?_) (hP0.2 c)
      intro r _ hh
      unfold head_at at hh ⊢
      rw [hsame] at hh
      exact hh
    · rw [hd] at hadd
      exact absurd hadd (not_lt.mpr (hu _).1)
  constructor
  · intro s1 h1 c _
    have key := paint_cols_preserve rain s.window.rows s.window.cols
      (fun _ w => (∀ r c, r < s.window.rows → c < s.window.cols →
        m_begin_gradient_color_pair ≤ (w.window.cell r c).pair ∧
        (w.window.cell r c).pair ≤ m_highlight_color_pair) ∧
        ∀ c, head_count w s.window.rows c ≤ head_count s s.window.rows c)
      (fun col w w1 hcol hw hstep => col_step col w w1 hcol hw hstep)
      s.window.cols 0 s s1 (by omega) ⟨hin, fun _ => Nat.le_refl _⟩ h1
    refine ⟨key.2 c, ?_⟩
    intro hnone
    have h0 := (head_count_eq_zero s s.window.rows c).mpr hnone
    have hle := key.2 c
    exact (head_count_eq_zero s1 s.window.rows c).mp (by omega)
  · intro hc
    exact paint_ok rain s hc hu

/-- Claim C16 on a 3 x 2 surface inside the reserved range with a rolling head in column 0
and no head in column 1. -/
theorem C16_no_new_drops_witness :
    ∃ s1, paint rain_rolling world_reserved = Except.ok s1 ∧ ∀ c, c < world_reserved.window.cols →
      head_count s1 world_reserved.window.rows c
        ≤ head_count world_reserved world_reserved.window.rows c ∧
      ((∀ r, r < world_reserved.window.rows → ¬ head_at world_reserved r c) →
        ∀ r, r < world_reserved.window.rows → ¬ head_at s1 r c) := by
  obtain ⟨h1, h2⟩ := C16_no_new_drops rain_rolling world_reserved rfl
    (fun _ => by norm_num [rain_rolling])
    (fun r c hr hc => by
      have hr3 : r < 3 := hr
      have hc2 : c < 2 := hc
      interval_cases r <;> interval_cases c <;> decide)
  obtain ⟨s1, hs⟩ := h2 (by simp [rain_rolling])
  exact ⟨s1, hs, h1 s1 hs⟩

/-! ## The cascade of a rolling head -/

/-- Every completed visit of a column leaves the other columns as they were. -/
theorem paint_col_frame (rain : Rain) (rows col : Nat) (t t1 : World)
    (h : paint_col rain rows col t = Except.ok t1) :
    ∀ r c, c ≠ col → t1.window.cell r c = t.window.cell r c := by
  obtain ⟨t0, h0, h1⟩ := paint_col_inv rain rows col t t1 h
  have hP0 := paint_rows_preserve rain rows col
    (fun _ w => ∀ r c, c ≠ col → w.window.cell r c = t.window.cell r c)
    (fun row w w1 _ hw hstep => by
      obtain ⟨_, _, _, hcases⟩ := paint_cell_inv rain rows row col w w1 hstep
      intro r c hc
      rcases hcases with ⟨hsame, _⟩ | ⟨_, _, _, ch, _, hcell⟩ | ⟨_, _, _, hcell⟩ |
        ⟨_, _, hcell⟩
      · rw [hsame]
        exact hw r c hc
      · rw [hcell r c, if_neg (fun hx => hc hx.2), if_neg (fun hx => hc hx.2)]
        exact hw r c hc
      · rw [hcell r c, if_neg (fun hx => hc hx.2)]
        exact hw r c hc
      · rw [hcell r c, if_neg (fun hx => hc hx.2)]
        exact hw r c hc)
    rows 0 t t0 (by omega) (fun _ _ _ => rfl) h0
  obtain ⟨_, _, _, hcases⟩ := paint_spawn_inv rain col t0 t1 h1
  intro r c hc
  rcases hcases with ⟨hsame, _⟩ | ⟨_, _, ch, _, hcell⟩
  · rw [hsame]
    exact hP0 r c hc
  · rw [hcell r c, if_neg (fun hx => hc hx.2)]
    exact hP0 r c hc

theorem faded_head_eq : faded m_highlight_color_pair = 20 := by decide

/-- With roll rate 1, fade rate 0 and density 0, every completed visit of a column whose
only head is at row r0 leaves the rows from r0 on at color pair 20 and the rows above r0 as
they were. -/
theorem paint_col_cascade (rain : Rain) (rows col r0 : Nat) (t t1 : World)
    (hroll : rain.m_roll_rate = 1) (hfade : rain.m_fade_rate = 0) (hd : rain.m_density = 0)
    (hu : ∀ i, 0 ≤ rain.m_generator i ∧ rain.m_generator i < 1)
    (hr0 : r0 < rows)
    (honly : ∀ j, j < rows → (head_at t j col ↔ j = r0))
    (h : paint_col rain rows col t = Except.ok t1) :
    (∀ j, r0 ≤ j → j < rows → (t1.window.cell j col).pair = 20) ∧
    (∀ j, j < r0 → t1.window.cell j col = t.window.cell j col) := by
  have rolls : ∀ i, rain.m_generator i < rain.m_roll_rate := fun i => by
    rw [hroll]; exact (hu i).2
  have nofade : ∀ i, ¬ rain.m_generator i < rain.m_fade_rate := fun i => by
    rw [hfade]; exact not_lt.mpr (hu i).1
  obtain ⟨t0, h0, h1⟩ := paint_col_inv rain rows col t t1 h
  have hP0 := paint_rows_preserve rain rows col
    (fun i w => (∀ j, j < r0 → w.window.cell j col = t.window.cell j col) ∧
      (∀ j, r0 ≤ j → j < i → (w.window.cell j col).pair = 20) ∧
      (∀ j, i ≤ j → j < rows → (head_at w j col ↔ j = max i r0)))
    (fun i w w1 hi ⟨pa, pb, pc⟩ hstep => by
      obtain ⟨_, _, _, hcases⟩ := paint_cell_inv rain rows i col w w1 hstep
      have hhead_iff := pc i (Nat.le_refl _) hi
      rcases hcases with ⟨hsame, hwhy⟩ | ⟨hhead, _, hnext, ch, _, hcell⟩ |
        ⟨hhead, _, hlast, hcell⟩ | ⟨_, hf, _⟩
      · rcases hwhy with ⟨_, hno⟩ | ⟨hfree, _⟩
        · exact absurd (rolls _) hno
        · have hlt : i < r0 := by
            by_contra hge
            exact hfree (hhead_iff.mpr (by omega))
          refine ⟨fun j hj => by rw [hsame]; exact pa j hj, fun j h1 h2 => by omega, ?_⟩
          intro j h1 h2
          unfold head_at
          rw [hsame]
          have := pc j (by omega) h2
          unfold head_at at this
          rw [this]
          omega
      · have hge : r0 ≤ i := by
          have := hhead_iff.mp hhead
          omega
        refine ⟨?_, ?_, ?_⟩
        · intro j hj
          rw [hcell j col, if_neg (fun hx => by omega), if_neg (fun hx => by omega)]
          exact pa j hj
        · intro j h1 h2
          rw [hcell j col, if_neg (fun hx => by omega)]
          by_cases hji : j = i
          · rw [if_pos ⟨hji, rfl⟩]
            unfold head_at at hhead
            show faded (w.window.cell i col).pair = 20
            rw [hhead]
            exact faded_head_eq
          · rw [if_neg (fun hx => hji hx.1)]
            exact pb j h1 (by omega)
        · intro j h1 h2
          unfold head_at
          rw [hcell j col]
          by_cases hjn : j = i + 1
          · rw [if_pos ⟨hjn, rfl⟩]
            constructor
            · intro _; omega
            · intro _; rfl
          · rw [if_neg (fun hx => hjn hx.1), if_neg (fun hx => by omega)]
            have := pc j (by omega) h2
            unfold head_at at this
            rw [this]
            omega
      · have hge : r0 ≤ i := by
          have := hhead_iff.mp hhead
          omega
        refine ⟨?_, ?_, fun j h1 h2 => by omega⟩
        · intro j hj
          rw [hcell j col, if_neg (fun hx => by omega)]
          exact pa j hj
        · intro j h1 h2
          rw [hcell j col]
          by_cases hji : j = i
          · rw [if_pos ⟨hji, rfl⟩]
            unfold head_at at hhead
            show faded (w.window.cell i col).pair = 20
            rw [hhead]
            exact faded_head_eq
          · rw [if_neg (fun hx => hji hx.1)]
            exact pb j h1 (by omega)
      · exact absurd hf (nofade _))
    rows 0 t t0 (by omega)
    ⟨fun _ _ => rfl, fun j h1 h2 => by omega, fun j _ h2 => by
      rw [honly j h2]
      omega⟩
    h0
  obtain ⟨pa, pb, _⟩ := hP0
  obtain ⟨_, _, _, hcases⟩ := paint_spawn_inv rain col t0 t1 h1
  rcases hcases with ⟨hsame, _⟩ | ⟨hadd, _⟩
  · constructor
    · intro j h1 h2
      rw [hsame]
      exact pb j h1 (by omega)
    · intro j hj
      rw [hsame]
      exact pa j hj
  · rw [hd] at hadd
    exact absurd hadd (not_lt.mpr (hu _).1)

/-- Claim C18: with roll rate 1, fade rate 0, density 0 and draws in [0,1), for a column of
the window whose only head is at row r0, all its other cells holding trail levels, after
every completed call of paint every cell of the column in the rows r0 to rows - 1 has the
brightest trail level G (color pair 20), every cell in the rows above r0 is unchanged, and
the column contains no head; the call completes when the character set is non-empty. -/
theorem C18_cascade (rain : Rain) (s : World) (col r0 : Nat)
    (hroll : rain.m_roll_rate = 1) (hfade : rain.m_fade_rate = 0) (hd : rain.m_density = 0)
    (hu : ∀ i, 0 ≤ rain.m_generator i ∧ rain.m_generator i < 1)
    (hcol : col < s.window.cols) (hr0 : r0 < s.window.rows)
    (hhead : head_at s r0 col)
    (htrail : ∀ j, j < s.window.rows → j ≠ r0 →
      m_begin_gradient_color_pair ≤ (s.window.cell j col).pair ∧
      (s.window.cell j col).pair < m_highlight_color_pair) :
    (∀ s1, paint rain s = Except.ok s1 →
      (∀ j, r0 ≤ j → j < s.window.rows →
        (s1.window.cell j col).pair = encode (Marker.level G) ∧
        (s1.window.cell j col).pair = 20) ∧
      (∀ j, j < r0 → s1.window.cell j col = s.window.cell j col) ∧
      (∀ j, j < s.window.rows → ¬ head_at s1 j col)) ∧
    (rain.m_character_set ≠ [] → ∃ s1, paint rain s = Except.ok s1) := by
  have honly : ∀ j, j < s.window.rows → (head_at s j col ↔ j = r0) := by
    intro j hj
    constructor
    · intro hh
      by_contra hne
      have := (htrail j hj hne).2
      unfold head_at at hh
      omega
    · intro hj0
      rw [hj0]
      exact hhead
  constructor
  · intro s1 h1
    have key := paint_cols_preserve rain s.window.rows s.window.cols
      (fun c w => (c ≤ col → ∀ j, w.window.cell j col = s.window.cell j col) ∧
        (col < c → (∀ j, r0 ≤ j → j < s.window.rows → (w.window.cell j col).pair = 20) ∧
          (∀ j, j < r0 → w.window.cell j col = s.window.cell j col)))
      (fun c w w1 _ ⟨pa, pb⟩ hstep => by
        by_cases hc : c = col
        · subst hc
          have hsame := pa (Nat.le_refl _)
          have honly_w : ∀ j, j < s.window.rows → (head_at w j c ↔ j = r0) := by
            intro j hj
            unfold head_at
            rw [hsame j]
            exact honly j hj
          obtain ⟨qa, qb⟩ := paint_col_cascade rain s.window.rows c r0 w w1 hroll hfade hd hu
            hr0 honly_w hstep
          exact ⟨fun hle => by omega,
            fun _ => ⟨qa, fun j hj => (qb j hj).trans (hsame j)⟩⟩
        · have hframe := paint_col_frame rain s.window.rows c w w1 hstep
          refine ⟨fun hle j => ?_, fun hlt => ?_⟩
          · rw [hframe j col (fun hx => hc hx.symm)]
            exact pa (by omega) j
          · obtain ⟨qa, qb⟩ := pb (by omega)
            refine ⟨fun j h1 h2 => ?_, fun j hj => ?_⟩
            · rw [hframe j col (fun hx => hc hx.symm)]
              exact qa j h1 h2
            · rw [hframe j col (fun hx => hc hx.symm)]
              exact qb j hj)
      s.window.cols 0 s s1 (by omega) ⟨fun _ _ => rfl, fun hlt => by omega⟩ h1
    obtain ⟨qa, qb⟩ := key.2 (by omega)
    refine ⟨fun j h1 h2 => ⟨qa j h1 h2, qa j h1 h2⟩, qb, ?_⟩
    intro j hj hh
    unfold head_at at hh
    by_cases hjr : r0 ≤ j
    · rw [qa j hjr hj] at hh
      exact absurd hh (by decide)
    · rw [qb j (by omega)] at hh
      have := (htrail j hj (by omega)).2
      omega
  · intro hc
    exact paint_ok rain s hc hu

/-- Claim C18 on the 3 x 2 surface whose column 0 has its only head at row 0. -/
theorem C18_cascade_witness :
    ∃ s1, paint rain_rolling world_reserved = Except.ok s1 ∧
      (∀ j, 0 ≤ j → j < world_reserved.window.rows →
        (s1.window.cell j 0).pair = encode (Marker.level G) ∧
        (s1.window.cell j 0).pair = 20) ∧
      (∀ j, j < 0 → s1.window.cell j 0 = world_reserved.window.cell j 0) ∧
      (∀ j, j < world_reserved.window.rows → ¬ head_at s1 j 0) := by
  obtain ⟨h1, h2⟩ := C18_cascade rain_rolling world_reserved 0 0 rfl rfl rfl
    (fun _ => by norm_num [rain_rolling]) (by decide) (by decide) (by decide)
    (fun j hj hne => by
      have hj3 : j < 3 := hj
      interval_cases j
      · exact absurd rfl hne
      · decide
      · decide)
  obtain ⟨s1, hs⟩ := h2 (by simp [rain_rolling])
  exact ⟨s1, hs, h1 s1 hs⟩

end Matrix
